import Mathlib

/-!
Shallow embedding of `src/salt/states/boto_iam_role.py` (the salt state
module managing IAM roles) and proofs about its reconciliation logic.

Modelling conventions:
* Policy documents and names are `String`s compared for equality (the code
  compares them with `!=`, no normalization).
* A Python dict of policies is an association list with unique keys,
  iterated in insertion order; `dict.update` replaces values in place and
  appends fresh keys, matching Python semantics.
* The remote provider (the `boto_iam` execution module behind `__salt__`)
  is a state `ProvState` (role existence/trust document, instance-profile
  existence, association flag, inline policies in listing order) plus a
  behaviour record `Prov` saying which mutating calls succeed.  A
  successful mutation updates the state; a failed one leaves it unchanged.
  Reads report the state.
* Every embedded function returns its Python `ret` dict (`Ret`), the
  provider state after the call, and the ordered trace of provider calls
  it issued (`List Call`), so that dry-run/mutation claims are statable.
* Python `ret['result']` is `True`/`False`/`None`; modelled as
  `Option Bool` with `none` standing for Python `None` (pending).
-/

namespace BotoIamRole

/-- A Python dict of policy name to policy document, as an association
list in insertion order. -/
abbrev Dict := List (String × String)

/-- First value bound to a key, Python `d[k]` / `k in d`. -/
def dictGet (d : Dict) (k : String) : Option String :=
  match d with
  | [] => none
  | (k2, v) :: rest => if k2 = k then some v else dictGet rest k

/-- Python `k in d`. -/
def hasKey (d : Dict) (k : String) : Bool :=
  (dictGet d k).isSome

/-- Python `d[k] = v`: replace in place, else append. -/
def dictSet (d : Dict) (k : String) (v : String) : Dict :=
  match d with
  | [] => [(k, v)]
  | (k2, v2) :: rest => if k2 = k then (k, v) :: rest else (k2, v2) :: dictSet rest k v

/-- Python `d.update(u)`: bind every pair of `u` in order. -/
def dictUpdate (d u : Dict) : Dict :=
  u.foldl (fun acc kv => dictSet acc kv.1 kv.2) d

/-- Python `del d[k]` for the policy map: drop the key. -/
def dictRemove (d : Dict) (k : String) : Dict :=
  d.filter (fun kv => kv.1 ≠ k)

/-- Python `', '.join(l)`. -/
def commaJoin (l : List String) : String := String.intercalate ", " l

/-- The remote IAM state the provider reads and mutates. -/
structure ProvState where
  /-- `some doc` when the role exists with trust document `doc`. -/
  role : Option String
  /-- Whether the instance profile of the same name exists. -/
  instance_profile : Bool
  /-- Whether the instance profile is associated with the role. -/
  associated : Bool
  /-- Inline policies in listing order. -/
  policies : Dict
deriving DecidableEq, Repr

/-- Provider behaviour: environment data and which mutating calls succeed.
A successful call takes effect on `ProvState`; a failed one returns the
failure boolean and leaves the state unchanged. -/
structure Prov where
  /-- The default trust document `boto_iam.build_policy` returns. -/
  build_policy : String
  /-- `pillar.get`: the policy dict stored under a pillar key. -/
  pillar : String → Dict
  create_role_ok : Bool
  update_assume_ok : Bool
  create_profile_ok : Bool
  associate_ok : Bool
  disassociate_ok : Bool
  delete_profile_ok : Bool
  delete_role_ok : Bool
  create_role_policy_ok : String → Bool
  delete_role_policy_ok : String → Bool

/-- One provider call, as recorded in a trace. -/
inductive Call where
  | describe_role (name : String)
  | create_role (name : String) (doc : Option String) (path : Option String)
  | build_policy
  | update_assume_role_policy (name : String) (doc : String)
  | role_exists (name : String)
  | delete_role (name : String)
  | instance_profile_exists (name : String)
  | create_instance_profile (name : String)
  | delete_instance_profile (name : String)
  | profile_associated (profileName : String) (roleName : String)
  | associate_profile_to_role (profileName : String) (roleName : String)
  | disassociate_profile_from_role (profileName : String) (roleName : String)
  | get_role_policy (roleName : String) (policyName : String)
  | list_role_policies (name : String)
  | create_role_policy (roleName : String) (policyName : String) (doc : String)
  | delete_role_policy (roleName : String) (policyName : String)
  | pillar_get (k : String)
deriving DecidableEq, Repr

/-- The create/update/delete/associate/disassociate calls; everything else
is read-only. -/
def Call.isMutating : Call → Bool
  | .create_role _ _ _ => true
  | .update_assume_role_policy _ _ => true
  | .delete_role _ => true
  | .create_instance_profile _ => true
  | .delete_instance_profile _ => true
  | .associate_profile_to_role _ _ => true
  | .disassociate_profile_from_role _ _ => true
  | .create_role_policy _ _ _ => true
  | .delete_role_policy _ _ => true
  | _ => false

/-- The keys a sub-step may put under `ret['changes']['old']` or
`ret['changes']['new']`; `none` in a field means the key is absent. -/
structure ChangeSet where
  role : Option (Option String)
  policy_document : Option (Option String)
  instance_profile : Option (Option String)
  profile_associated : Option (Option Bool)
  policies : Option (List String)
deriving DecidableEq, Repr

def ChangeSet.empty : ChangeSet := ⟨none, none, none, none, none⟩

/-- Key-wise overwrite: a key bound by the update wins. -/
def orUpdate {α : Type} (a b : Option α) : Option α :=
  match b with
  | some v => some v
  | none => a

/-- `salt.utils.dictupdate.update` on one changes level, key-wise. -/
def ChangeSet.update (a b : ChangeSet) : ChangeSet :=
  ⟨orUpdate a.role b.role, orUpdate a.policy_document b.policy_document,
   orUpdate a.instance_profile b.instance_profile,
   orUpdate a.profile_associated b.profile_associated,
   orUpdate a.policies b.policies⟩

/-- `ret['changes']`: the `old` and `new` snapshots. -/
structure Changes where
  old : ChangeSet
  new : ChangeSet
deriving DecidableEq, Repr

def Changes.empty : Changes := ⟨ChangeSet.empty, ChangeSet.empty⟩

/-- `dictupdate.update(ret['changes'], _ret['changes'])`. -/
def Changes.update (a b : Changes) : Changes := ⟨a.old.update b.old, a.new.update b.new⟩

/-- The `ret` dict each function returns: `result` is Python
`True`/`False`/`None` (`none` = pending), `comment`, `changes`. -/
structure Ret where
  result : Option Bool
  comment : String
  changes : Changes
deriving DecidableEq, Repr

/-- `_role_present`: ensure the role exists and its trust document matches
the effective desired document. -/
def rolePresent (p : Prov) (test : Bool) (name : String)
    (policy_document : Option String) (path : Option String) (s : ProvState) :
    Ret × ProvState × List Call :=
  match s.role with
  | none =>
    if test then
      ({ result := none, comment := s!"IAM role {name} is set to be created.",
         changes := Changes.empty }, s, [.describe_role name])
    else if p.create_role_ok then
      ({ result := some true, comment := s!"IAM role {name} created.",
         changes := { old := { ChangeSet.empty with role := some none },
                      new := { ChangeSet.empty with role := some (some name) } } },
       { s with role := some (policy_document.getD p.build_policy) },
       [.describe_role name, .create_role name policy_document path])
    else
      ({ result := some false, comment := s!"Failed to create {name} IAM role.",
         changes := Changes.empty },
       s, [.describe_role name, .create_role name policy_document path])
  | some current =>
    let base := s!"{name} role present."
    let readCalls :=
      [Call.describe_role name] ++ (if policy_document.isNone then [Call.build_policy] else [])
    let desired := policy_document.getD p.build_policy
    if current = desired then
      ({ result := some true, comment := base, changes := Changes.empty }, s, readCalls)
    else if test then
      ({ result := none, comment := base ++ " Assume role policy document to be updated.",
         changes := Changes.empty }, s, readCalls)
    else if p.update_assume_ok then
      ({ result := some true, comment := base ++ " Assume role policy document updated.",
         changes := { old := { ChangeSet.empty with policy_document := some policy_document },
                      new := { ChangeSet.empty with policy_document := some (some desired) } } },
       { s with role := some desired },
       readCalls ++ [.update_assume_role_policy name desired])
    else
      ({ result := some false, comment := base ++ " Failed to update assume role policy.",
         changes := Changes.empty },
       s, readCalls ++ [.update_assume_role_policy name desired])

/-- `_instance_profile_present`. -/
def instanceProfilePresent (p : Prov) (test : Bool) (name : String) (s : ProvState) :
    Ret × ProvState × List Call :=
  if s.instance_profile then
    ({ result := some true, comment := "", changes := Changes.empty }, s,
     [.instance_profile_exists name])
  else if test then
    ({ result := none, comment := s!"Instance profile {name} is set to be created.",
       changes := Changes.empty }, s, [.instance_profile_exists name])
  else if p.create_profile_ok then
    ({ result := some true, comment := s!"Instance profile {name} created.",
       changes := { old := { ChangeSet.empty with instance_profile := some none },
                    new := { ChangeSet.empty with instance_profile := some (some name) } } },
     { s with instance_profile := true },
     [.instance_profile_exists name, .create_instance_profile name])
  else
    ({ result := some false, comment := s!"Failed to create {name} instance profile.",
       changes := Changes.empty },
     s, [.instance_profile_exists name, .create_instance_profile name])

/-- `_instance_profile_associated`. -/
def instanceProfileAssociated (p : Prov) (test : Bool) (name : String) (s : ProvState) :
    Ret × ProvState × List Call :=
  if s.associated then
    ({ result := some true, comment := "", changes := Changes.empty }, s,
     [.profile_associated name name])
  else if test then
    ({ result := none, comment := s!"Instance profile {name} is set to be associated.",
       changes := Changes.empty }, s, [.profile_associated name name])
  else if p.associate_ok then
    ({ result := some true, comment := s!"Instance profile {name} associated.",
       changes := { old := { ChangeSet.empty with profile_associated := some none },
                    new := { ChangeSet.empty with profile_associated := some (some true) } } },
     { s with associated := true },
     [.profile_associated name name, .associate_profile_to_role name name])
  else
    ({ result := some false,
       comment := s!"Failed to associate {name} instance profile with {name} role.",
       changes := Changes.empty },
     s, [.profile_associated name name, .associate_profile_to_role name name])

/-- The names the role currently lists, `boto_iam.list_role_policies`. -/
def listNames (s : ProvState) : List String := s.policies.map Prod.fst

/-- The `policies_to_create` dict of `_policies_present`: desired entries
whose current document differs (an absent current document differs). -/
def policiesToCreate (policies : Dict) (s : ProvState) : Dict :=
  policies.filter (fun kv => decide (dictGet s.policies kv.1 ≠ some kv.2))

/-- The `policies_to_delete` list of `_policies_present`: listed names not
in the desired dict, kept only when `delete_policies` is set. -/
def policiesToDelete (policies : Dict) (delete_policies : Bool) (s : ProvState) :
    List String :=
  (listNames s).filter (fun n => delete_policies && !(hasKey policies n))

/-- The `create_role_policy` loop of `_policies_present`: apply creates in
order; stop at the first failure and report the failing policy name. -/
def applyCreates (p : Prov) (name : String) :
    Dict → ProvState → Option String × ProvState × List Call
  | [], s => (none, s, [])
  | (pn, doc) :: rest, s =>
    if p.create_role_policy_ok pn then
      let s2 := { s with policies := dictSet s.policies pn doc }
      let out := applyCreates p name rest s2
      (out.1, out.2.1, Call.create_role_policy name pn doc :: out.2.2)
    else
      (some pn, s, [Call.create_role_policy name pn doc])

/-- The `delete_role_policy` loop shared by `_policies_present` and
`_policies_absent`: apply deletes in order; stop at the first failure. -/
def applyDeletes (p : Prov) (name : String) :
    List String → ProvState → Option String × ProvState × List Call
  | [], s => (none, s, [])
  | pn :: rest, s =>
    if p.delete_role_policy_ok pn then
      let s2 := { s with policies := dictRemove s.policies pn }
      let out := applyDeletes p name rest s2
      (out.1, out.2.1, Call.delete_role_policy name pn :: out.2.2)
    else
      (some pn, s, [Call.delete_role_policy name pn])

/-- `_policies_present`: converge the inline-policy set of the role to the
desired dict. -/
def policiesPresent (p : Prov) (test : Bool) (name : String) (policies : Dict)
    (delete_policies : Bool) (s : ProvState) : Ret × ProvState × List Call :=
  let toCreate := policiesToCreate policies s
  let lst := listNames s
  let toDelete := policiesToDelete policies delete_policies s
  let readCalls := (policies.map fun kv => Call.get_role_policy name kv.1)
    ++ [Call.list_role_policies name]
  if toCreate.isEmpty && toDelete.isEmpty then
    ({ result := some true, comment := "", changes := Changes.empty }, s, readCalls)
  else if test then
    ({ result := none,
       comment := s!"{commaJoin (toDelete ++ toCreate.map Prod.fst)} policies to be modified on role {name}.",
       changes := Changes.empty }, s, readCalls)
  else
    match applyCreates p name toCreate s with
    | (some failed, s2, t1) =>
      ({ result := some false, comment := s!"Failed to add policy {failed} to role {name}",
         changes := { old := { ChangeSet.empty with policies := some lst },
                      new := { ChangeSet.empty with policies := some (listNames s2) } } },
       s2, readCalls ++ t1 ++ [Call.list_role_policies name])
    | (none, s2, t1) =>
      match applyDeletes p name toDelete s2 with
      | (some failed, s3, t2) =>
        ({ result := some false,
           comment := s!"Failed to remove policy {failed} from role {name}",
           changes := { old := { ChangeSet.empty with policies := some lst },
                        new := { ChangeSet.empty with policies := some (listNames s3) } } },
         s3, readCalls ++ t1 ++ t2 ++ [Call.list_role_policies name])
      | (none, s3, t2) =>
        ({ result := some true,
           comment := s!"{commaJoin (listNames s3)} policies modified on role {name}.",
           changes := { old := { ChangeSet.empty with policies := some lst },
                        new := { ChangeSet.empty with policies := some (listNames s3) } } },
         s3, readCalls ++ t1 ++ t2 ++ [Call.list_role_policies name])

/-- `_policies_absent`: delete every inline policy of the role.  The
failure comment reproduces the source text verbatim, including its
"Failed to add policy" wording in the delete loop. -/
def policiesAbsent (p : Prov) (test : Bool) (name : String) (s : ProvState) :
    Ret × ProvState × List Call :=
  let lst := listNames s
  if lst.isEmpty then
    ({ result := some true, comment := s!"No policies in role {name}.",
       changes := Changes.empty }, s, [.list_role_policies name])
  else if test then
    ({ result := none, comment := s!"{commaJoin lst} policies to be removed from role {name}.",
       changes := Changes.empty }, s, [.list_role_policies name])
  else
    match applyDeletes p name lst s with
    | (some failed, s2, t) =>
      ({ result := some false, comment := s!"Failed to add policy {failed} to role {name}",
         changes := { old := { ChangeSet.empty with policies := some lst },
                      new := { ChangeSet.empty with policies := some (listNames s2) } } },
       s2, [Call.list_role_policies name] ++ t ++ [Call.list_role_policies name])
    | (none, s2, t) =>
      ({ result := some true,
         comment := s!"{commaJoin (listNames s2)} policies removed from role {name}.",
         changes := { old := { ChangeSet.empty with policies := some lst },
                      new := { ChangeSet.empty with policies := some (listNames s2) } } },
       s2, [Call.list_role_policies name] ++ t ++ [Call.list_role_policies name])

/-- `_role_absent`. -/
def roleAbsent (p : Prov) (test : Bool) (name : String) (s : ProvState) :
    Ret × ProvState × List Call :=
  if s.role.isSome then
    if test then
      ({ result := none, comment := s!"IAM role {name} is set to be removed.",
         changes := Changes.empty }, s, [.role_exists name])
    else if p.delete_role_ok then
      ({ result := some true, comment := s!"IAM role {name} removed.",
         changes := { old := { ChangeSet.empty with role := some (some name) },
                      new := { ChangeSet.empty with role := some none } } },
       { s with role := none }, [.role_exists name, .delete_role name])
    else
      ({ result := some false, comment := s!"Failed to delete {name} iam role.",
         changes := Changes.empty },
       s, [.role_exists name, .delete_role name])
  else
    ({ result := some true, comment := s!"{name} role does not exist.",
       changes := Changes.empty }, s, [.role_exists name])

/-- `_instance_profile_absent`. -/
def instanceProfileAbsent (p : Prov) (test : Bool) (name : String) (s : ProvState) :
    Ret × ProvState × List Call :=
  if s.instance_profile then
    if test then
      ({ result := none, comment := s!"Instance profile {name} is set to be removed.",
         changes := Changes.empty }, s, [.instance_profile_exists name])
    else if p.delete_profile_ok then
      ({ result := some true, comment := s!"Instance profile {name} removed.",
         changes := { old := { ChangeSet.empty with instance_profile := some (some name) },
                      new := { ChangeSet.empty with instance_profile := some none } } },
       { s with instance_profile := false },
       [.instance_profile_exists name, .delete_instance_profile name])
    else
      ({ result := some false, comment := s!"Failed to delete {name} instance profile.",
         changes := Changes.empty },
       s, [.instance_profile_exists name, .delete_instance_profile name])
  else
    ({ result := some true, comment := s!"{name} instance profile does not exist.",
       changes := Changes.empty }, s, [.instance_profile_exists name])

/-- `_instance_profile_disassociated`. -/
def instanceProfileDisassociated (p : Prov) (test : Bool) (name : String) (s : ProvState) :
    Ret × ProvState × List Call :=
  if s.associated then
    if test then
      ({ result := none, comment := s!"Instance profile {name} is set to be disassociated.",
         changes := Changes.empty }, s, [.profile_associated name name])
    else if p.disassociate_ok then
      ({ result := some true, comment := s!"Instance profile {name} disassociated.",
         changes := { old := { ChangeSet.empty with profile_associated := some (some true) },
                      new := { ChangeSet.empty with profile_associated := some (some false) } } },
       { s with associated := false },
       [.profile_associated name name, .disassociate_profile_from_role name name])
    else
      ({ result := some false,
         comment := s!"Failed to disassociate {name} instance profile from {name} role.",
         changes := Changes.empty },
       s, [.profile_associated name name, .disassociate_profile_from_role name name])
  else
    ({ result := some true, comment := "", changes := Changes.empty }, s,
     [.profile_associated name name])

/-- The empty top-level `ret` dict both entry points start from. -/
def retInit : Ret := { result := some true, comment := "", changes := Changes.empty }

/-- A trace made only of read-only provider calls. -/
def readOnly (t : List Call) : Bool := t.all fun c => !c.isMutating

/-- The orchestrator result fold: `False` wins over pending (`None`) wins
over `True`. -/
def combineResults (rs : List (Option Bool)) : Option Bool :=
  if rs.contains (some false) then some false
  else if rs.contains none then none
  else some true

/-- A provider whose mutating calls all succeed and take effect: the
"provider honouring its contract" hypothesis. -/
def Prov.allOk (p : Prov) : Prop :=
  p.create_role_ok = true ∧ p.update_assume_ok = true ∧ p.create_profile_ok = true ∧
  p.associate_ok = true ∧ p.disassociate_ok = true ∧ p.delete_profile_ok = true ∧
  p.delete_role_ok = true ∧ (∀ n, p.create_role_policy_ok n = true) ∧
  (∀ n, p.delete_role_policy_ok n = true)

/-- One orchestrator merge step: comments joined with a space, changes
merged key-wise, and the result overwritten whenever the step result is
falsy (`False` or `None`). -/
def mergeStep (acc : Ret) (r : Ret) : Ret :=
  { result := if r.result = some true then acc.result else r.result,
    comment := acc.comment ++ " " ++ r.comment,
    changes := acc.changes.update r.changes }

/-- The merged desired policy dict of `present`: fold the pillar sources
left to right, then overlay the explicit policies dict. -/
def mergedPolicies (p : Prov) (policies : Dict) (policies_from_pillars : List String) :
    Dict :=
  dictUpdate (policies_from_pillars.foldl (fun acc k => dictUpdate acc (p.pillar k)) [])
    policies

/-- `present`: role, then (optionally) instance profile and association,
then the policy set; each merged, with an immediate return on a `False`
step result.  The pillar lookups happen right after the role step, before
its result is inspected. -/
def present (p : Prov) (test : Bool) (name : String) (policy_document : Option String)
    (path : Option String) (policies : Dict) (policies_from_pillars : List String)
    (create_instance_profile : Bool) (delete_policies : Bool) (s : ProvState) :
    Ret × ProvState × List Call :=
  let step1 := rolePresent p test name policy_document path s
  let pillarCalls := policies_from_pillars.map Call.pillar_get
  let merged := mergedPolicies p policies policies_from_pillars
  let a1 := mergeStep retInit step1.1
  if step1.1.result = some false then (a1, step1.2.1, step1.2.2 ++ pillarCalls)
  else if create_instance_profile then
    let step2 := instanceProfilePresent p test name step1.2.1
    let a2 := mergeStep a1 step2.1
    if step2.1.result = some false then
      (a2, step2.2.1, step1.2.2 ++ pillarCalls ++ step2.2.2)
    else
      let step3 := instanceProfileAssociated p test name step2.2.1
      let a3 := mergeStep a2 step3.1
      if step3.1.result = some false then
        (a3, step3.2.1, step1.2.2 ++ pillarCalls ++ step2.2.2 ++ step3.2.2)
      else
        let step4 := policiesPresent p test name merged delete_policies step3.2.1
        (mergeStep a3 step4.1, step4.2.1,
         step1.2.2 ++ pillarCalls ++ step2.2.2 ++ step3.2.2 ++ step4.2.2)
  else
    let step4 := policiesPresent p test name merged delete_policies step1.2.1
    (mergeStep a1 step4.1, step4.2.1, step1.2.2 ++ pillarCalls ++ step4.2.2)

/-- `absent`: policies, disassociation, instance profile, role, each
merged, with an immediate return on a `False` step result. -/
def absent (p : Prov) (test : Bool) (name : String) (s : ProvState) :
    Ret × ProvState × List Call :=
  let step1 := policiesAbsent p test name s
  let a1 := mergeStep retInit step1.1
  if step1.1.result = some false then (a1, step1.2.1, step1.2.2)
  else
    let step2 := instanceProfileDisassociated p test name step1.2.1
    let a2 := mergeStep a1 step2.1
    if step2.1.result = some false then (a2, step2.2.1, step1.2.2 ++ step2.2.2)
    else
      let step3 := instanceProfileAbsent p test name step2.2.1
      let a3 := mergeStep a2 step3.1
      if step3.1.result = some false then
        (a3, step3.2.1, step1.2.2 ++ step2.2.2 ++ step3.2.2)
      else
        let step4 := roleAbsent p test name step3.2.1
        (mergeStep a3 step4.1, step4.2.1,
         step1.2.2 ++ step2.2.2 ++ step3.2.2 ++ step4.2.2)

/-- A remote account with no role, no instance profile, no association
and no inline policies. -/
def cleanState : ProvState :=
  { role := none, instance_profile := false, associated := false, policies := [] }

/-- A concrete provider whose mutating calls all succeed. -/
def provAll : Prov :=
  { build_policy := "DEFAULT", pillar := fun _ => [],
    create_role_ok := true, update_assume_ok := true, create_profile_ok := true,
    associate_ok := true, disassociate_ok := true, delete_profile_ok := true,
    delete_role_ok := true, create_role_policy_ok := fun _ => true,
    delete_role_policy_ok := fun _ => true }

/-- `provAll` with every `delete_role_policy` call failing. -/
def provDelFail : Prov := { provAll with delete_role_policy_ok := fun _ => false }

/-- `provAll` with two pillar keys bound to colliding policy dicts. -/
def provPillars : Prov :=
  { provAll with pillar := fun k =>
      if k = "pA" then [("p", "X")] else if k = "pB" then [("p", "Y")] else [] }

/-- `provAll` where creating the role policy named b fails. -/
def provCreateBFail : Prov :=
  { provAll with create_role_policy_ok := fun n => n ≠ "b" }

theorem readOnly_append (a b : List Call) :
    readOnly (a ++ b) = (readOnly a && readOnly b) := by
  simp [readOnly, List.all_append]

theorem readOnly_nil : readOnly [] = true := rfl

theorem readOnly_cons (c : Call) (t : List Call) :
    readOnly (c :: t) = (!c.isMutating && readOnly t) := by
  simp [readOnly]

theorem readOnly_pillarCalls (l : List String) :
    readOnly (l.map Call.pillar_get) = true := by
  induction l with
  | nil => rfl
  | cons x xs ih =>
    simp only [List.map_cons, readOnly_cons, ih, Call.isMutating, Bool.and_true,
      Bool.not_false]

theorem rolePresent_dry_readOnly (p : Prov) (name : String) (pd path : Option String)
    (s : ProvState) : readOnly (rolePresent p true name pd path s).2.2 = true := by
  unfold rolePresent
  cases s.role with
  | none => simp [readOnly, Call.isMutating]
  | some current =>
    simp only []
    split
    · cases pd <;> simp [readOnly, Call.isMutating]
    · cases pd <;> simp [readOnly, Call.isMutating]

theorem rolePresent_dry_state (p : Prov) (name : String) (pd path : Option String)
    (s : ProvState) : (rolePresent p true name pd path s).2.1 = s := by
  unfold rolePresent
  cases s.role with
  | none => simp
  | some current =>
    simp only []
    split <;> simp

theorem instanceProfilePresent_dry_readOnly (p : Prov) (name : String) (s : ProvState) :
    readOnly (instanceProfilePresent p true name s).2.2 = true := by
  unfold instanceProfilePresent
  split <;> simp [readOnly, Call.isMutating]

theorem instanceProfilePresent_dry_state (p : Prov) (name : String) (s : ProvState) :
    (instanceProfilePresent p true name s).2.1 = s := by
  unfold instanceProfilePresent
  split <;> simp

theorem instanceProfileAssociated_dry_readOnly (p : Prov) (name : String) (s : ProvState) :
    readOnly (instanceProfileAssociated p true name s).2.2 = true := by
  unfold instanceProfileAssociated
  split <;> simp [readOnly, Call.isMutating]

theorem instanceProfileAssociated_dry_state (p : Prov) (name : String) (s : ProvState) :
    (instanceProfileAssociated p true name s).2.1 = s := by
  unfold instanceProfileAssociated
  split <;> simp

theorem readOnly_getCalls (name : String) (policies : Dict) :
    readOnly (policies.map fun kv => Call.get_role_policy name kv.1) = true := by
  induction policies with
  | nil => rfl
  | cons x xs ih => simpa [readOnly, Call.isMutating] using ih

theorem policiesPresent_dry_readOnly (p : Prov) (name : String) (policies : Dict)
    (dp : Bool) (s : ProvState) :
    readOnly (policiesPresent p true name policies dp s).2.2 = true := by
  unfold policiesPresent
  by_cases h : ((policiesToCreate policies s).isEmpty && (policiesToDelete policies dp s).isEmpty) = true <;>
    simp [h, readOnly_append, readOnly_getCalls, readOnly_cons, readOnly_nil, Call.isMutating]

theorem policiesPresent_dry_state (p : Prov) (name : String) (policies : Dict)
    (dp : Bool) (s : ProvState) :
    (policiesPresent p true name policies dp s).2.1 = s := by
  unfold policiesPresent
  by_cases h : ((policiesToCreate policies s).isEmpty && (policiesToDelete policies dp s).isEmpty) = true <;>
    simp [h]

theorem policiesAbsent_dry_readOnly (p : Prov) (name : String) (s : ProvState) :
    readOnly (policiesAbsent p true name s).2.2 = true := by
  unfold policiesAbsent
  by_cases h : (listNames s).isEmpty = true <;>
    simp [h, readOnly_cons, readOnly_nil, Call.isMutating]

theorem policiesAbsent_dry_state (p : Prov) (name : String) (s : ProvState) :
    (policiesAbsent p true name s).2.1 = s := by
  unfold policiesAbsent
  by_cases h : (listNames s).isEmpty = true <;> simp [h]

theorem instanceProfileDisassociated_dry_readOnly (p : Prov) (name : String) (s : ProvState) :
    readOnly (instanceProfileDisassociated p true name s).2.2 = true := by
  unfold instanceProfileDisassociated
  split <;> simp [readOnly, Call.isMutating]

theorem instanceProfileDisassociated_dry_state (p : Prov) (name : String) (s : ProvState) :
    (instanceProfileDisassociated p true name s).2.1 = s := by
  unfold instanceProfileDisassociated
  split <;> simp

theorem instanceProfileAbsent_dry_readOnly (p : Prov) (name : String) (s : ProvState) :
    readOnly (instanceProfileAbsent p true name s).2.2 = true := by
  unfold instanceProfileAbsent
  split <;> simp [readOnly, Call.isMutating]

theorem instanceProfileAbsent_dry_state (p : Prov) (name : String) (s : ProvState) :
    (instanceProfileAbsent p true name s).2.1 = s := by
  unfold instanceProfileAbsent
  split <;> simp

theorem roleAbsent_dry_readOnly (p : Prov) (name : String) (s : ProvState) :
    readOnly (roleAbsent p true name s).2.2 = true := by
  unfold roleAbsent
  split <;> simp [readOnly, Call.isMutating]

theorem roleAbsent_dry_state (p : Prov) (name : String) (s : ProvState) :
    (roleAbsent p true name s).2.1 = s := by
  unfold roleAbsent
  split <;> simp

theorem present_dry_readOnly (p : Prov) (name : String) (pd path : Option String)
    (policies : Dict) (pillars : List String) (cip dp : Bool) (s : ProvState) :
    readOnly (present p true name pd path policies pillars cip dp s).2.2 = true := by
  simp only [present]
  repeat' split
  all_goals simp [readOnly_append, rolePresent_dry_readOnly, readOnly_pillarCalls,
    instanceProfilePresent_dry_readOnly, instanceProfileAssociated_dry_readOnly,
    policiesPresent_dry_readOnly]

theorem absent_dry_readOnly (p : Prov) (name : String) (s : ProvState) :
    readOnly (absent p true name s).2.2 = true := by
  simp only [absent]
  repeat' split
  all_goals simp [readOnly_append, policiesAbsent_dry_readOnly,
    instanceProfileDisassociated_dry_readOnly, instanceProfileAbsent_dry_readOnly,
    roleAbsent_dry_readOnly]

/-- C1. For every spec, when the dry-run flag is true, `present` and
`absent` issue only read-only provider calls: no create, update, delete,
associate or disassociate call appears in their call traces. -/
theorem dry_run_never_mutates (p : Prov) (name : String) (pd path : Option String)
    (policies : Dict) (pillars : List String) (cip dp : Bool) (s : ProvState) :
    readOnly (present p true name pd path policies pillars cip dp s).2.2 = true ∧
    readOnly (absent p true name s).2.2 = true :=
  ⟨present_dry_readOnly p name pd path policies pillars cip dp s,
   absent_dry_readOnly p name s⟩

theorem dictGet_dictSet (d : Dict) (k v k2 : String) :
    dictGet (dictSet d k v) k2 = if k = k2 then some v else dictGet d k2 := by
  induction d with
  | nil => simp [dictSet, dictGet]
  | cons hd tl ih =>
    obtain ⟨k3, v3⟩ := hd
    simp only [dictSet]
    by_cases h : k3 = k
    · subst h
      by_cases h2 : k3 = k2 <;> simp [dictGet, h2]
    · by_cases h2 : k3 = k2
      · subst h2
        have hk : ¬k = k3 := fun e => h e.symm
        simp [dictGet, h, hk]
      · simp [dictGet, h, h2, ih]

theorem dictGet_eq_none_iff (u : Dict) (k : String) :
    dictGet u k = none ↔ k ∉ u.map Prod.fst := by
  induction u with
  | nil => simp [dictGet]
  | cons hd tl ih =>
    obtain ⟨k2, v2⟩ := hd
    by_cases h : k2 = k
    · subst h; simp [dictGet]
    · have h2 : ¬k = k2 := fun e => h e.symm
      simp [dictGet, h, h2, ih]

theorem dictUpdate_get_of_none (d u : Dict) (k : String) (h : dictGet u k = none) :
    dictGet (dictUpdate d u) k = dictGet d k := by
  induction u generalizing d with
  | nil => rfl
  | cons hd tl ih =>
    obtain ⟨k2, v2⟩ := hd
    have hk : ¬k2 = k := by
      intro e
      simp [dictGet, e] at h
    have htl : dictGet tl k = none := by
      simpa [dictGet, hk] using h
    show dictGet (dictUpdate (dictSet d k2 v2) tl) k = dictGet d k
    rw [ih _ htl, dictGet_dictSet]
    simp [hk]

theorem dictUpdate_get_of_some (d u : Dict) (k v : String)
    (h : dictGet u k = some v) (hnd : (u.map Prod.fst).Nodup) :
    dictGet (dictUpdate d u) k = some v := by
  induction u generalizing d with
  | nil => simp [dictGet] at h
  | cons hd tl ih =>
    obtain ⟨k2, v2⟩ := hd
    simp only [List.map_cons, List.nodup_cons] at hnd
    show dictGet (dictUpdate (dictSet d k2 v2) tl) k = some v
    by_cases hk : k2 = k
    · subst hk
      have hv : v2 = v := by simpa [dictGet] using h
      subst hv
      have htl : dictGet tl k2 = none := by
        rw [dictGet_eq_none_iff]
        exact hnd.1
      rw [dictUpdate_get_of_none _ _ _ htl, dictGet_dictSet]
      simp
    · have htl : dictGet tl k = some v := by simpa [dictGet, hk] using h
      exact ih _ htl hnd.2

/-- C5. The merged desired policy dict folds the pillar sources left to
right, later sources overriding earlier ones on key collision, and then
overlays the explicit policies dict: a key bound to X and Y by pillars a
and b and to Z by the explicit policies ends bound to Z, and with no
explicit binding it ends bound to the later pillar value Y. -/
theorem merged_policies_fold_order (p : Prov) (a b k X Y Z : String)
    (policies policiesNoK : Dict)
    (_hA : dictGet (p.pillar a) k = some X)
    (hB : dictGet (p.pillar b) k = some Y)
    (hBnd : ((p.pillar b).map Prod.fst).Nodup)
    (hZ : dictGet policies k = some Z)
    (hnd : (policies.map Prod.fst).Nodup)
    (hNoK : dictGet policiesNoK k = none) :
    dictGet (mergedPolicies p policies [a, b]) k = some Z ∧
    dictGet (mergedPolicies p policiesNoK [a, b]) k = some Y := by
  constructor
  · exact dictUpdate_get_of_some _ _ _ _ hZ hnd
  · show dictGet (dictUpdate (dictUpdate (dictUpdate [] (p.pillar a)) (p.pillar b)) policiesNoK) k = some Y
    rw [dictUpdate_get_of_none _ _ _ hNoK]
    exact dictUpdate_get_of_some _ _ _ _ hB hBnd

/-- Closed instance of C5: pillars pA and pB bind p to X and Y, the
explicit policies bind it to Z; the merge yields Z, and yields Y when the
explicit dict is empty. -/
theorem merged_policies_fold_order_witness :
    dictGet (mergedPolicies provPillars [("p", "Z")] ["pA", "pB"]) "p" = some "Z" ∧
    dictGet (mergedPolicies provPillars [] ["pA", "pB"]) "p" = some "Y" :=
  merged_policies_fold_order provPillars "pA" "pB" "p" "X" "Y" "Z" [("p", "Z")] []
    (by decide) (by decide) (by decide) (by decide) (by decide) (by decide)

theorem applyCreates_no_delete (p : Prov) (name : String) (l : Dict) :
    ∀ (s : ProvState), ∀ c ∈ (applyCreates p name l s).2.2, ∀ r q,
      c ≠ Call.delete_role_policy r q := by
  induction l with
  | nil => intro s c hc; simp [applyCreates] at hc
  | cons hd tl ih =>
    intro s c hc r q
    obtain ⟨pn, doc⟩ := hd
    by_cases h : p.create_role_policy_ok pn = true
    · simp only [applyCreates, h, if_true, List.mem_cons] at hc
      rcases hc with hc | hc
      · subst hc; intro e; cases e
      · exact ih _ c hc r q
    · simp only [applyCreates, h, if_false, Bool.false_eq_true, List.mem_singleton] at hc
      subst hc; intro e; cases e

/-- The call trace of `_policies_present` takes one of three shapes: the
reads alone, reads then creates then a re-list, or reads then creates
then deletes then a re-list. -/
theorem policiesPresent_trace_cases (p : Prov) (test : Bool) (name : String)
    (policies : Dict) (dp : Bool) (s : ProvState) :
    (policiesPresent p test name policies dp s).2.2 =
      ((policies.map fun kv => Call.get_role_policy name kv.1)
        ++ [Call.list_role_policies name]) ∨
    (policiesPresent p test name policies dp s).2.2 =
      ((policies.map fun kv => Call.get_role_policy name kv.1)
        ++ [Call.list_role_policies name])
        ++ (applyCreates p name (policiesToCreate policies s) s).2.2
        ++ [Call.list_role_policies name] ∨
    (policiesPresent p test name policies dp s).2.2 =
      ((policies.map fun kv => Call.get_role_policy name kv.1)
        ++ [Call.list_role_policies name])
        ++ (applyCreates p name (policiesToCreate policies s) s).2.2
        ++ (applyDeletes p name (policiesToDelete policies dp s)
              (applyCreates p name (policiesToCreate policies s) s).2.1).2.2
        ++ [Call.list_role_policies name] := by
  simp only [policiesPresent]
  split
  · left; rfl
  · split
    · left; rfl
    · split
      · rename_i heq
        right; left
        simp [heq, List.append_assoc]
      · rename_i heq
        split
        · rename_i heq2
          right; right
          simp [heq, heq2, List.append_assoc]
        · rename_i heq2
          right; right
          simp [heq, heq2, List.append_assoc]

/-- C6. A currently attached policy name outside the desired dict enters
the delete list exactly when `delete_policies` is set: with it unset the
delete list is empty, no `delete_role_policy` call is ever issued, and
when additionally nothing needs creating the outcome carries no changes. -/
theorem delete_policies_gating (p : Prov) (test : Bool) (name n : String)
    (policies : Dict) (s : ProvState) :
    policiesToDelete policies false s = [] ∧
    (n ∈ policiesToDelete policies true s ↔ (n ∈ listNames s ∧ hasKey policies n = false)) ∧
    (∀ c ∈ (policiesPresent p test name policies false s).2.2, ∀ r q,
        c ≠ Call.delete_role_policy r q) ∧
    (policiesToCreate policies s = [] →
      (policiesPresent p test name policies false s).1.changes = Changes.empty) := by
  have hdel : policiesToDelete policies false s = [] := by simp [policiesToDelete]
  refine ⟨hdel, by simp [policiesToDelete], ?_, ?_⟩
  · intro c hc r q
    have hread : ∀ c2 ∈ ((policies.map fun kv => Call.get_role_policy name kv.1)
        ++ [Call.list_role_policies name]), ∀ r2 q2, c2 ≠ Call.delete_role_policy r2 q2 := by
      intro c2 hc2 r2 q2
      rcases List.mem_append.mp hc2 with h2 | h2
      · obtain ⟨kv, _, hkv⟩ := List.mem_map.mp h2
        rw [← hkv]; intro e; cases e
      · rw [List.mem_singleton.mp h2]; intro e; cases e
    rcases policiesPresent_trace_cases p test name policies false s with h | h | h <;>
      rw [h] at hc
    · exact hread c hc r q
    · rcases List.mem_append.mp hc with h2 | h2
      · rcases List.mem_append.mp h2 with h3 | h3
        · exact hread c h3 r q
        · exact applyCreates_no_delete p name _ s c h3 r q
      · rw [List.mem_singleton.mp h2]; intro e; cases e
    · rw [hdel] at hc
      rcases List.mem_append.mp hc with h2 | h2
      · rcases List.mem_append.mp h2 with h3 | h3
        · rcases List.mem_append.mp h3 with h4 | h4
          · exact hread c h4 r q
          · exact applyCreates_no_delete p name _ s c h4 r q
        · simp [applyDeletes] at h3
      · rw [List.mem_singleton.mp h2]; intro e; cases e
  · intro hc
    simp [policiesPresent, hc, hdel]

/-- C7 is refuted by the code: on a successful trust-policy update the
recorded old snapshot is the `policy_document` argument (`None` when the
default document is in use), not the document read from the provider.
Here the current document is A and the desired one B, yet the recorded
old snapshot is B (and `None` in the defaulted variant), not A. -/
theorem rolePresent_old_snapshot_is_argument :
    (rolePresent provAll false "myrole" (some "B") none
        { cleanState with role := some "A" }).1.changes.old.policy_document
      = some (some "B") ∧
    (rolePresent provAll false "myrole" (some "B") none
        { cleanState with role := some "A" }).1.result = some true ∧
    (rolePresent provAll false "myrole" none none
        { cleanState with role := some "A" }).1.changes.old.policy_document
      = some none := by
  refine ⟨?_, ?_, ?_⟩ <;> decide

/-- C8 is refuted by the code on the failure message: when a
`delete_role_policy` call fails inside `_policies_absent`, the comment
reads "Failed to add policy ... to role ..." (the create-loop wording),
not "Failed to remove policy ... from role ...". -/
theorem policiesAbsent_failure_message_says_add :
    (policiesAbsent provDelFail false "myrole"
        { cleanState with policies := [("p1", "d1")] }).1.comment
      = "Failed to add policy p1 to role myrole" ∧
    (policiesAbsent provDelFail false "myrole"
        { cleanState with policies := [("p1", "d1")] }).1.result = some false := by
  refine ⟨?_, ?_⟩ <;> decide

theorem applyCreates_append_fail (p : Prov) (name : String) (pre : Dict)
    (x : String × String) (rest : Dict) :
    ∀ s : ProvState, (∀ kv ∈ pre, p.create_role_policy_ok kv.1 = true) →
    p.create_role_policy_ok x.1 = false →
    applyCreates p name (pre ++ x :: rest) s =
      (some x.1, (applyCreates p name pre s).2.1,
       (applyCreates p name pre s).2.2 ++ [Call.create_role_policy name x.1 x.2]) := by
  induction pre with
  | nil =>
    intro s _ hx
    obtain ⟨pn, doc⟩ := x
    simp only [] at hx
    simp [applyCreates, hx]
  | cons hd tl ih =>
    intro s hpre hx
    obtain ⟨pn, doc⟩ := hd
    have hok : p.create_role_policy_ok pn = true := hpre _ (List.mem_cons_self _ _)
    have hih := ih { s with policies := dictSet s.policies pn doc }
      (fun kv hkv => hpre kv (List.mem_cons_of_mem _ hkv)) hx
    simp only [List.cons_append, applyCreates, hok, if_true, List.append_eq, hih]

/-- C4. In a live run, the first failing `create_role_policy` call stops
the reconciliation: the outcome is result false with the exact failure
comment, `old.policies` is the list read before any mutation,
`new.policies` is the list re-read right after the failed attempt, and
the trace ends with the failing create and the re-list — the remaining
creates and all deletes are never attempted. -/
theorem policies_present_fail_fast (p : Prov) (name : String) (policies : Dict)
    (dp : Bool) (s : ProvState) (pre : Dict) (x : String × String) (rest : Dict)
    (hsplit : policiesToCreate policies s = pre ++ x :: rest)
    (hpre : ∀ kv ∈ pre, p.create_role_policy_ok kv.1 = true)
    (hx : p.create_role_policy_ok x.1 = false) :
    policiesPresent p false name policies dp s =
      ({ result := some false,
         comment := s!"Failed to add policy {x.1} to role {name}",
         changes := { old := { ChangeSet.empty with policies := some (listNames s) },
                      new := { ChangeSet.empty with
                               policies := some (listNames (applyCreates p name pre s).2.1) } } },
       (applyCreates p name pre s).2.1,
       ((policies.map fun kv => Call.get_role_policy name kv.1)
         ++ [Call.list_role_policies name])
        ++ ((applyCreates p name pre s).2.2 ++ [Call.create_role_policy name x.1 x.2])
        ++ [Call.list_role_policies name]) := by
  have hfail := applyCreates_append_fail p name pre x rest s hpre hx
  rw [← hsplit] at hfail
  have hne : (policiesToCreate policies s).isEmpty = false := by
    rw [hsplit]
    cases pre <;> rfl
  simp only [policiesPresent, hne, Bool.false_and, Bool.false_eq_true, if_false, hfail]

/-- Closed instance of C4: with desired policies a, b, c to create and
the create of b failing, c is never attempted and the outcome reports
the failure on b. -/
theorem policies_present_fail_fast_witness :
    (policiesPresent provCreateBFail false "r" [("a", "1"), ("b", "2"), ("c", "3")] true
        cleanState).1.result = some false ∧
    (policiesPresent provCreateBFail false "r" [("a", "1"), ("b", "2"), ("c", "3")] true
        cleanState).1.comment = "Failed to add policy b to role r" ∧
    (policiesPresent provCreateBFail false "r" [("a", "1"), ("b", "2"), ("c", "3")] true
        cleanState).2.2 =
      [Call.get_role_policy "r" "a", Call.get_role_policy "r" "b",
       Call.get_role_policy "r" "c", Call.list_role_policies "r",
       Call.create_role_policy "r" "a" "1", Call.create_role_policy "r" "b" "2",
       Call.list_role_policies "r"] := by
  have h := policies_present_fail_fast provCreateBFail "r"
    [("a", "1"), ("b", "2"), ("c", "3")] true cleanState
    [("a", "1")] ("b", "2") [("c", "3")] (by decide) (by decide) (by decide)
  rw [h]
  refine ⟨rfl, rfl, rfl⟩

theorem mergeStep_result (a r : Ret) :
    (mergeStep a r).result = if r.result = some true then a.result else r.result := rfl

theorem combine_ifs (a b c d : Option Bool) (h1 : a ≠ some false) (h2 : b ≠ some false)
    (h3 : c ≠ some false) :
    (if d = some true then
       (if c = some true then
         (if b = some true then (if a = some true then some true else a) else b)
        else c)
     else d) = combineResults [a, b, c, d] := by
  have val : ∀ x : Option Bool, x = none ∨ x = some false ∨ x = some true := by
    intro x
    rcases x with _ | b2
    · exact Or.inl rfl
    · cases b2
      · exact Or.inr (Or.inl rfl)
      · exact Or.inr (Or.inr rfl)
  rcases val a with h | h | h <;> rcases val b with h4 | h4 | h4 <;>
    rcases val c with h5 | h5 | h5 <;> rcases val d with h6 | h6 | h6 <;>
    subst_vars <;> first | decide | simp_all

theorem present_cases (p : Prov) (test : Bool) (name : String) (pd path : Option String)
    (policies : Dict) (pillars : List String) (dp : Bool) (s : ProvState) :
    ((rolePresent p test name pd path s).1.result = some false →
      (present p test name pd path policies pillars true dp s).2.2 =
        (rolePresent p test name pd path s).2.2 ++ pillars.map Call.pillar_get ∧
      (present p test name pd path policies pillars true dp s).1.result = some false) ∧
    ((rolePresent p test name pd path s).1.result ≠ some false →
     (instanceProfilePresent p test name (rolePresent p test name pd path s).2.1).1.result
        = some false →
      (present p test name pd path policies pillars true dp s).2.2 =
        (rolePresent p test name pd path s).2.2 ++ pillars.map Call.pillar_get
          ++ (instanceProfilePresent p test name (rolePresent p test name pd path s).2.1).2.2 ∧
      (present p test name pd path policies pillars true dp s).1.result = some false) ∧
    ((rolePresent p test name pd path s).1.result ≠ some false →
     (instanceProfilePresent p test name (rolePresent p test name pd path s).2.1).1.result
        ≠ some false →
     (instanceProfileAssociated p test name
        (instanceProfilePresent p test name (rolePresent p test name pd path s).2.1).2.1).1.result
        = some false →
      (present p test name pd path policies pillars true dp s).2.2 =
        (rolePresent p test name pd path s).2.2 ++ pillars.map Call.pillar_get
          ++ (instanceProfilePresent p test name (rolePresent p test name pd path s).2.1).2.2
          ++ (instanceProfileAssociated p test name
              (instanceProfilePresent p test name (rolePresent p test name pd path s).2.1).2.1).2.2 ∧
      (present p test name pd path policies pillars true dp s).1.result = some false) ∧
    ((rolePresent p test name pd path s).1.result ≠ some false →
     (instanceProfilePresent p test name (rolePresent p test name pd path s).2.1).1.result
        ≠ some false →
     (instanceProfileAssociated p test name
        (instanceProfilePresent p test name (rolePresent p test name pd path s).2.1).2.1).1.result
        ≠ some false →
      (present p test name pd path policies pillars true dp s).2.2 =
        (rolePresent p test name pd path s).2.2 ++ pillars.map Call.pillar_get
          ++ (instanceProfilePresent p test name (rolePresent p test name pd path s).2.1).2.2
          ++ (instanceProfileAssociated p test name
              (instanceProfilePresent p test name (rolePresent p test name pd path s).2.1).2.1).2.2
          ++ (policiesPresent p test name (mergedPolicies p policies pillars) dp
              (instanceProfileAssociated p test name
                (instanceProfilePresent p test name
                  (rolePresent p test name pd path s).2.1).2.1).2.1).2.2 ∧
      (present p test name pd path policies pillars true dp s).1.result =
        combineResults
          [(rolePresent p test name pd path s).1.result,
           (instanceProfilePresent p test name (rolePresent p test name pd path s).2.1).1.result,
           (instanceProfileAssociated p test name
             (instanceProfilePresent p test name (rolePresent p test name pd path s).2.1).2.1).1.result,
           (policiesPresent p test name (mergedPolicies p policies pillars) dp
             (instanceProfileAssociated p test name
               (instanceProfilePresent p test name
                 (rolePresent p test name pd path s).2.1).2.1).2.1).1.result]) := by
  rcases h1 : rolePresent p test name pd path s with ⟨r1, s1, t1⟩
  rcases h2 : instanceProfilePresent p test name s1 with ⟨r2, s2, t2⟩
  rcases h3 : instanceProfileAssociated p test name s2 with ⟨r3, s3, t3⟩
  rcases h4 : policiesPresent p test name (mergedPolicies p policies pillars) dp s3
    with ⟨r4, s4, t4⟩
  refine ⟨?_, ?_, ?_, ?_⟩
  · intro hf
    simp only [present, h1, h2, h3, h4] at *
    simp [hf, mergeStep_result]
  · intro hnf hf
    simp only [present, h1, h2, h3, h4] at *
    simp [hnf, hf, mergeStep_result]
  · intro hnf hnf2 hf
    simp only [present, h1, h2, h3, h4] at *
    simp [hnf, hnf2, hf, mergeStep_result]
  · intro hnf hnf2 hnf3
    simp only [present, h1, h2, h3, h4] at *
    refine ⟨by simp [hnf, hnf2, hnf3], ?_⟩
    rw [← combine_ifs r1.result r2.result r3.result r4.result hnf hnf2 hnf3]
    simp [hnf, hnf2, hnf3, mergeStep_result, retInit]

theorem absent_cases (p : Prov) (test : Bool) (name : String) (s : ProvState) :
    ((policiesAbsent p test name s).1.result = some false →
      (absent p test name s).2.2 = (policiesAbsent p test name s).2.2 ∧
      (absent p test name s).1.result = some false) ∧
    ((policiesAbsent p test name s).1.result ≠ some false →
     (instanceProfileDisassociated p test name (policiesAbsent p test name s).2.1).1.result
        = some false →
      (absent p test name s).2.2 = (policiesAbsent p test name s).2.2
        ++ (instanceProfileDisassociated p test name (policiesAbsent p test name s).2.1).2.2 ∧
      (absent p test name s).1.result = some false) ∧
    ((policiesAbsent p test name s).1.result ≠ some false →
     (instanceProfileDisassociated p test name (policiesAbsent p test name s).2.1).1.result
        ≠ some false →
     (instanceProfileAbsent p test name
        (instanceProfileDisassociated p test name (policiesAbsent p test name s).2.1).2.1).1.result
        = some false →
      (absent p test name s).2.2 = (policiesAbsent p test name s).2.2
        ++ (instanceProfileDisassociated p test name (policiesAbsent p test name s).2.1).2.2
        ++ (instanceProfileAbsent p test name
            (instanceProfileDisassociated p test name (policiesAbsent p test name s).2.1).2.1).2.2 ∧
      (absent p test name s).1.result = some false) ∧
    ((policiesAbsent p test name s).1.result ≠ some false →
     (instanceProfileDisassociated p test name (policiesAbsent p test name s).2.1).1.result
        ≠ some false →
     (instanceProfileAbsent p test name
        (instanceProfileDisassociated p test name (policiesAbsent p test name s).2.1).2.1).1.result
        ≠ some false →
      (absent p test name s).2.2 = (policiesAbsent p test name s).2.2
        ++ (instanceProfileDisassociated p test name (policiesAbsent p test name s).2.1).2.2
        ++ (instanceProfileAbsent p test name
            (instanceProfileDisassociated p test name (policiesAbsent p test name s).2.1).2.1).2.2
        ++ (roleAbsent p test name
            (instanceProfileAbsent p test name
              (instanceProfileDisassociated p test name
                (policiesAbsent p test name s).2.1).2.1).2.1).2.2 ∧
      (absent p test name s).1.result =
        combineResults
          [(policiesAbsent p test name s).1.result,
           (instanceProfileDisassociated p test name (policiesAbsent p test name s).2.1).1.result,
           (instanceProfileAbsent p test name
             (instanceProfileDisassociated p test name (policiesAbsent p test name s).2.1).2.1).1.result,
           (roleAbsent p test name
             (instanceProfileAbsent p test name
               (instanceProfileDisassociated p test name
                 (policiesAbsent p test name s).2.1).2.1).2.1).1.result]) := by
  rcases h1 : policiesAbsent p test name s with ⟨r1, s1, t1⟩
  rcases h2 : instanceProfileDisassociated p test name s1 with ⟨r2, s2, t2⟩
  rcases h3 : instanceProfileAbsent p test name s2 with ⟨r3, s3, t3⟩
  rcases h4 : roleAbsent p test name s3 with ⟨r4, s4, t4⟩
  refine ⟨?_, ?_, ?_, ?_⟩
  · intro hf
    simp only [absent, h1, h2, h3, h4] at *
    simp [hf, mergeStep_result]
  · intro hnf hf
    simp only [absent, h1, h2, h3, h4] at *
    simp [hnf, hf, mergeStep_result]
  · intro hnf hnf2 hf
    simp only [absent, h1, h2, h3, h4] at *
    simp [hnf, hnf2, hf, mergeStep_result]
  · intro hnf hnf2 hnf3
    simp only [absent, h1, h2, h3, h4] at *
    refine ⟨by simp [hnf, hnf2, hnf3], ?_⟩
    rw [← combine_ifs r1.result r2.result r3.result r4.result hnf hnf2 hnf3]
    simp [hnf, hnf2, hnf3, mergeStep_result, retInit]

/-- C3. In both `present` (with its instance-profile steps enabled) and
`absent`: a sub-step returning result `False` causes an immediate return
— later sub-steps issue no calls — with final result false, while a
pending (`None`) sub-step does not stop later sub-steps, whose calls all
appear in the trace; the final result is false if an executed step
returned false, else pending if one was pending, else true. -/
theorem short_circuit_and_merge (p : Prov) (test : Bool) (name : String)
    (pd path : Option String) (policies : Dict) (pillars : List String) (dp : Bool)
    (s : ProvState) :
    (let step1 := rolePresent p test name pd path s
     let step2 := instanceProfilePresent p test name step1.2.1
     let step3 := instanceProfileAssociated p test name step2.2.1
     let step4 := policiesPresent p test name (mergedPolicies p policies pillars) dp step3.2.1
     let out := present p test name pd path policies pillars true dp s
     (step1.1.result = some false →
        out.2.2 = step1.2.2 ++ pillars.map Call.pillar_get ∧ out.1.result = some false) ∧
     (step1.1.result ≠ some false → step2.1.result = some false →
        out.2.2 = step1.2.2 ++ pillars.map Call.pillar_get ++ step2.2.2 ∧
        out.1.result = some false) ∧
     (step1.1.result ≠ some false → step2.1.result ≠ some false →
      step3.1.result = some false →
        out.2.2 = step1.2.2 ++ pillars.map Call.pillar_get ++ step2.2.2 ++ step3.2.2 ∧
        out.1.result = some false) ∧
     (step1.1.result ≠ some false → step2.1.result ≠ some false →
      step3.1.result ≠ some false →
        out.2.2 = step1.2.2 ++ pillars.map Call.pillar_get ++ step2.2.2 ++ step3.2.2
          ++ step4.2.2 ∧
        out.1.result = combineResults
          [step1.1.result, step2.1.result, step3.1.result, step4.1.result])) ∧
    (let step1 := policiesAbsent p test name s
     let step2 := instanceProfileDisassociated p test name step1.2.1
     let step3 := instanceProfileAbsent p test name step2.2.1
     let step4 := roleAbsent p test name step3.2.1
     let out := absent p test name s
     (step1.1.result = some false →
        out.2.2 = step1.2.2 ∧ out.1.result = some false) ∧
     (step1.1.result ≠ some false → step2.1.result = some false →
        out.2.2 = step1.2.2 ++ step2.2.2 ∧ out.1.result = some false) ∧
     (step1.1.result ≠ some false → step2.1.result ≠ some false →
      step3.1.result = some false →
        out.2.2 = step1.2.2 ++ step2.2.2 ++ step3.2.2 ∧ out.1.result = some false) ∧
     (step1.1.result ≠ some false → step2.1.result ≠ some false →
      step3.1.result ≠ some false →
        out.2.2 = step1.2.2 ++ step2.2.2 ++ step3.2.2 ++ step4.2.2 ∧
        out.1.result = combineResults
          [step1.1.result, step2.1.result, step3.1.result, step4.1.result])) :=
  ⟨present_cases p test name pd path policies pillars dp s,
   absent_cases p test name s⟩

theorem dictGet_mem (d : Dict) (k v : String) (h : dictGet d k = some v) : (k, v) ∈ d := by
  induction d with
  | nil => simp [dictGet] at h
  | cons hd tl ih =>
    obtain ⟨k2, v2⟩ := hd
    by_cases h2 : k2 = k
    · subst h2
      have : v2 = v := by simpa [dictGet] using h
      subst this
      exact List.mem_cons_self _ _
    · exact List.mem_cons_of_mem _ (ih (by simpa [dictGet, h2] using h))

theorem mem_dictGet_of_nodup (d : Dict) (k v : String)
    (hnd : (d.map Prod.fst).Nodup) (h : (k, v) ∈ d) : dictGet d k = some v := by
  induction d with
  | nil => simp at h
  | cons hd tl ih =>
    obtain ⟨k2, v2⟩ := hd
    simp only [List.map_cons, List.nodup_cons] at hnd
    rcases List.mem_cons.mp h with h2 | h2
    · obtain ⟨e1, e2⟩ := Prod.mk.injEq .. ▸ h2
      cases h2
      simp [dictGet]
    · have hk : ¬k2 = k := by
        intro e
        subst e
        exact hnd.1 (List.mem_map.mpr ⟨(k2, v), h2, rfl⟩)
      simp [dictGet, hk, ih hnd.2 h2]

theorem keys_policiesToCreate_nodup (policies : Dict) (s : ProvState)
    (hnd : (policies.map Prod.fst).Nodup) :
    ((policiesToCreate policies s).map Prod.fst).Nodup :=
  ((List.filter_sublist policies).map Prod.fst).nodup hnd

theorem dictGet_dictRemove (d : Dict) (k k2 : String) :
    dictGet (dictRemove d k) k2 = if k2 = k then none else dictGet d k2 := by
  induction d with
  | nil => simp [dictRemove, dictGet]
  | cons hd tl ih =>
    obtain ⟨k3, v3⟩ := hd
    by_cases h3 : k3 = k
    · rw [show dictRemove ((k3, v3) :: tl) k = dictRemove tl k from by simp [dictRemove, h3]]
      rw [ih]
      by_cases h2 : k2 = k
      · simp [h2]
      · have h4 : ¬k3 = k2 := by rw [h3]; exact fun e => h2 e.symm
        simp [dictGet, h2, h4]
    · rw [show dictRemove ((k3, v3) :: tl) k = (k3, v3) :: dictRemove tl k from by
        simp [dictRemove, h3]]
      by_cases h2 : k3 = k2
      · subst h2
        simp [dictGet, h3]
      · simp [dictGet, h2, ih]

theorem foldl_dictRemove_get (l : List String) (d : Dict) (k : String) (hk : k ∉ l) :
    dictGet (l.foldl (fun d2 n2 => dictRemove d2 n2) d) k = dictGet d k := by
  induction l generalizing d with
  | nil => rfl
  | cons n tl ih =>
    have hk1 : k ≠ n := fun e => hk (e ▸ List.mem_cons_self n tl)
    have hk2 : k ∉ tl := fun h => hk (List.mem_cons_of_mem _ h)
    show dictGet (tl.foldl (fun d2 n2 => dictRemove d2 n2) (dictRemove d n)) k = dictGet d k
    rw [ih _ hk2, dictGet_dictRemove]
    simp [hk1]

theorem mem_names_dictRemove (d : Dict) (k n : String)
    (h : n ∈ (dictRemove d k).map Prod.fst) : n ∈ d.map Prod.fst ∧ n ≠ k := by
  obtain ⟨kv, hkv, he⟩ := List.mem_map.mp h
  have hmem := List.mem_of_mem_filter hkv
  have hne := List.of_mem_filter hkv
  subst he
  exact ⟨List.mem_map.mpr ⟨kv, hmem, rfl⟩, by simpa using hne⟩

theorem mem_names_foldl_dictRemove (l : List String) (d : Dict) (n : String)
    (h : n ∈ (l.foldl (fun d2 n2 => dictRemove d2 n2) d).map Prod.fst) :
    n ∈ d.map Prod.fst ∧ n ∉ l := by
  induction l generalizing d with
  | nil => simpa using h
  | cons m tl ih =>
    have h2 : n ∈ (tl.foldl (fun d2 n2 => dictRemove d2 n2) (dictRemove d m)).map Prod.fst := h
    obtain ⟨hmem, hnin⟩ := ih _ h2
    obtain ⟨hmem2, hne⟩ := mem_names_dictRemove d m n hmem
    exact ⟨hmem2, by simp [List.mem_cons, hne, hnin]⟩

theorem mem_names_dictSet (d : Dict) (k v n : String)
    (h : n ∈ (dictSet d k v).map Prod.fst) : n ∈ d.map Prod.fst ∨ n = k := by
  induction d with
  | nil =>
    simp only [dictSet, List.map_cons, List.map_nil, List.mem_singleton] at h
    exact Or.inr h
  | cons hd tl ih =>
    obtain ⟨k2, v2⟩ := hd
    by_cases h2 : k2 = k
    · subst h2
      simp only [dictSet, if_pos trivial, List.map_cons] at h
      rcases List.mem_cons.mp h with h3 | h3
      · exact Or.inr h3
      · exact Or.inl (by simp [h3])
    · simp only [dictSet, if_neg h2, List.map_cons] at h
      rcases List.mem_cons.mp h with h3 | h3
      · exact Or.inl (by simp [h3])
      · rcases ih h3 with h4 | h4
        · exact Or.inl (by simp [h4])
        · exact Or.inr h4

theorem mem_names_dictUpdate (d u : Dict) (n : String)
    (h : n ∈ (dictUpdate d u).map Prod.fst) :
    n ∈ d.map Prod.fst ∨ n ∈ u.map Prod.fst := by
  induction u generalizing d with
  | nil => exact Or.inl h
  | cons kv tl ih =>
    have h2 : n ∈ (dictUpdate (dictSet d kv.1 kv.2) tl).map Prod.fst := h
    rcases ih _ h2 with h3 | h3
    · rcases mem_names_dictSet d kv.1 kv.2 n h3 with h4 | h4
      · exact Or.inl h4
      · exact Or.inr (by simp [h4])
    · exact Or.inr (by simp only [List.map_cons]; exact List.mem_cons_of_mem _ h3)

theorem keys_dictSet_nodup (d : Dict) (k v : String)
    (hnd : (d.map Prod.fst).Nodup) : ((dictSet d k v).map Prod.fst).Nodup := by
  induction d with
  | nil => simp [dictSet]
  | cons hd tl ih =>
    obtain ⟨k2, v2⟩ := hd
    simp only [List.map_cons, List.nodup_cons] at hnd
    by_cases h2 : k2 = k
    · subst h2
      rw [show dictSet ((k2, v2) :: tl) k2 v = (k2, v) :: tl from by simp [dictSet]]
      simp only [List.map_cons, List.nodup_cons]
      exact ⟨hnd.1, hnd.2⟩
    · rw [show dictSet ((k2, v2) :: tl) k v = (k2, v2) :: dictSet tl k v from by
        simp [dictSet, h2]]
      simp only [List.map_cons, List.nodup_cons]
      refine ⟨fun hmem => ?_, ih hnd.2⟩
      rcases mem_names_dictSet tl k v k2 hmem with h3 | h3
      · exact hnd.1 h3
      · exact h2 h3

theorem keys_dictUpdate_nodup (d u : Dict) (hnd : (d.map Prod.fst).Nodup) :
    ((dictUpdate d u).map Prod.fst).Nodup := by
  induction u generalizing d with
  | nil => exact hnd
  | cons kv tl ih => exact ih _ (keys_dictSet_nodup d kv.1 kv.2 hnd)

theorem mergedPolicies_keys_nodup (p : Prov) (policies : Dict) (pillars : List String) :
    ((mergedPolicies p policies pillars).map Prod.fst).Nodup := by
  have base : ∀ l : List String, ∀ d : Dict, (d.map Prod.fst).Nodup →
      (((l.foldl (fun acc k => dictUpdate acc (p.pillar k)) d)).map Prod.fst).Nodup := by
    intro l
    induction l with
    | nil => intro d hd; exact hd
    | cons x tl ih => intro d hd; exact ih _ (keys_dictUpdate_nodup _ _ hd)
  exact keys_dictUpdate_nodup _ _ (base pillars [] (by simp))

theorem applyCreates_allOk (p : Prov) (name : String) (l : Dict)
    (hok : ∀ kv ∈ l, p.create_role_policy_ok kv.1 = true) :
    ∀ s : ProvState, applyCreates p name l s =
      (none, { s with policies := dictUpdate s.policies l },
       l.map fun kv => Call.create_role_policy name kv.1 kv.2) := by
  induction l with
  | nil => intro s; rfl
  | cons hd tl ih =>
    intro s
    obtain ⟨pn, doc⟩ := hd
    have h1 : p.create_role_policy_ok pn = true := hok _ (List.mem_cons_self _ _)
    have hih := ih (fun kv hkv => hok kv (List.mem_cons_of_mem _ hkv))
      { s with policies := dictSet s.policies pn doc }
    simp only [applyCreates, h1, if_true, hih]
    rfl

theorem applyDeletes_allOk (p : Prov) (name : String) (l : List String)
    (hok : ∀ n2 ∈ l, p.delete_role_policy_ok n2 = true) :
    ∀ s : ProvState, applyDeletes p name l s =
      (none, { s with policies := l.foldl (fun d2 n2 => dictRemove d2 n2) s.policies },
       l.map fun n2 => Call.delete_role_policy name n2) := by
  induction l with
  | nil => intro s; rfl
  | cons hd tl ih =>
    intro s
    have h1 : p.delete_role_policy_ok hd = true := hok _ (List.mem_cons_self _ _)
    have hih := ih (fun n2 hn2 => hok n2 (List.mem_cons_of_mem _ hn2))
      { s with policies := dictRemove s.policies hd }
    simp only [applyDeletes, h1, if_true, hih]
    rfl

theorem hasKey_iff_mem (d : Dict) (k : String) :
    hasKey d k = true ↔ k ∈ d.map Prod.fst := by
  simp [hasKey, Option.isSome_iff_ne_none, dictGet_eq_none_iff]

theorem rolePresent_live_allOk (p : Prov) (name : String) (pd path : Option String)
    (s : ProvState) (hcr : p.create_role_ok = true) (hua : p.update_assume_ok = true) :
    (rolePresent p false name pd path s).1.result = some true ∧
    (rolePresent p false name pd path s).2.1 =
      { s with role := some (pd.getD p.build_policy) } := by
  obtain ⟨sr, sip, sas, spol⟩ := s
  unfold rolePresent
  cases sr with
  | none => simp [hcr]
  | some current =>
    by_cases he : current = pd.getD p.build_policy
    · simp [he]
    · simp [he, hua]

theorem rolePresent_noop (p : Prov) (test : Bool) (name : String) (pd path : Option String)
    (s : ProvState) (h : s.role = some (pd.getD p.build_policy)) :
    rolePresent p test name pd path s =
      ({ result := some true, comment := s!"{name} role present.", changes := Changes.empty },
       s, [Call.describe_role name] ++ if pd.isNone then [Call.build_policy] else []) := by
  unfold rolePresent
  simp [h]

theorem instanceProfilePresent_live_allOk (p : Prov) (name : String) (s : ProvState)
    (hcp : p.create_profile_ok = true) :
    (instanceProfilePresent p false name s).1.result = some true ∧
    (instanceProfilePresent p false name s).2.1 = { s with instance_profile := true } := by
  obtain ⟨sr, sip, sas, spol⟩ := s
  unfold instanceProfilePresent
  cases sip <;> simp [hcp]

theorem instanceProfilePresent_noop (p : Prov) (test : Bool) (name : String)
    (s : ProvState) (h : s.instance_profile = true) :
    instanceProfilePresent p test name s =
      ({ result := some true, comment := "", changes := Changes.empty }, s,
       [Call.instance_profile_exists name]) := by
  unfold instanceProfilePresent
  simp [h]

theorem instanceProfileAssociated_live_allOk (p : Prov) (name : String) (s : ProvState)
    (has : p.associate_ok = true) :
    (instanceProfileAssociated p false name s).1.result = some true ∧
    (instanceProfileAssociated p false name s).2.1 = { s with associated := true } := by
  obtain ⟨sr, sip, sas, spol⟩ := s
  unfold instanceProfileAssociated
  cases sas <;> simp [has]

theorem instanceProfileAssociated_noop (p : Prov) (test : Bool) (name : String)
    (s : ProvState) (h : s.associated = true) :
    instanceProfileAssociated p test name s =
      ({ result := some true, comment := "", changes := Changes.empty }, s,
       [Call.profile_associated name name]) := by
  unfold instanceProfileAssociated
  simp [h]

theorem policiesPresent_live_allOk (p : Prov) (name : String) (policies : Dict)
    (dp : Bool) (s : ProvState)
    (hc : ∀ n2, p.create_role_policy_ok n2 = true)
    (hd : ∀ n2, p.delete_role_policy_ok n2 = true) :
    (policiesPresent p false name policies dp s).1.result = some true ∧
    (policiesPresent p false name policies dp s).2.1 =
      { s with policies :=
          ((policiesToDelete policies dp s).foldl (fun d2 n2 => dictRemove d2 n2)
            (dictUpdate s.policies (policiesToCreate policies s))) } := by
  unfold policiesPresent
  by_cases h : ((policiesToCreate policies s).isEmpty
      && (policiesToDelete policies dp s).isEmpty) = true
  · have h1 : policiesToCreate policies s = [] := by
      rcases Bool.and_eq_true .. |>.mp h with ⟨ha, _⟩
      exact List.isEmpty_iff.mp ha
    have h2 : policiesToDelete policies dp s = [] := by
      rcases Bool.and_eq_true .. |>.mp h with ⟨_, hb⟩
      exact List.isEmpty_iff.mp hb
    simp [h, h1, h2, dictUpdate]
  · simp only [policiesPresent, h, Bool.false_eq_true, if_false,
      applyCreates_allOk p name _ (fun kv _ => hc kv.1),
      applyDeletes_allOk p name _ (fun n2 _ => hd n2)]
    simp [h]

theorem policiesPresent_noop (p : Prov) (test : Bool) (name : String) (policies : Dict)
    (dp : Bool) (s : ProvState) (h1 : policiesToCreate policies s = [])
    (h2 : policiesToDelete policies dp s = []) :
    policiesPresent p test name policies dp s =
      ({ result := some true, comment := "", changes := Changes.empty }, s,
       (policies.map fun kv => Call.get_role_policy name kv.1)
         ++ [Call.list_role_policies name]) := by
  unfold policiesPresent
  simp [h1, h2]

theorem policiesPresent_live_post (p : Prov) (name : String) (policies : Dict) (dp : Bool)
    (s : ProvState) (hc : ∀ n2, p.create_role_policy_ok n2 = true)
    (hd : ∀ n2, p.delete_role_policy_ok n2 = true)
    (hnd : (policies.map Prod.fst).Nodup) :
    policiesToCreate policies (policiesPresent p false name policies dp s).2.1 = [] ∧
    policiesToDelete policies dp (policiesPresent p false name policies dp s).2.1 = [] := by
  obtain ⟨-, hstate⟩ := policiesPresent_live_allOk p name policies dp s hc hd
  rw [hstate]
  constructor
  · rw [policiesToCreate]
    rw [List.filter_eq_nil_iff]
    rintro ⟨k, v⟩ hkv
    simp only [decide_eq_true_eq, not_not]
    have hget : dictGet policies k = some v := mem_dictGet_of_nodup policies k v hnd hkv
    have hk_in : hasKey policies k = true := by simp [hasKey, hget]
    have hk_not_td : k ∉ policiesToDelete policies dp s := by
      rw [policiesToDelete]
      intro hmem
      have hpred := List.of_mem_filter hmem
      simp [hk_in] at hpred
    show dictGet _ k = some v
    rw [foldl_dictRemove_get _ _ _ hk_not_td]
    by_cases hck : dictGet s.policies k = some v
    · have hnone : dictGet (policiesToCreate policies s) k = none := by
        rw [dictGet_eq_none_iff]
        intro hmem
        obtain ⟨⟨k2, w⟩, hmem2, he⟩ := List.mem_map.mp hmem
        simp only [] at he
        subst he
        have hmem3 := List.mem_of_mem_filter hmem2
        have hw : dictGet policies k2 = some w := mem_dictGet_of_nodup policies k2 w hnd hmem3
        have hwv : w = v := by
          rw [hget] at hw
          exact (Option.some.injEq .. ▸ hw).symm
        have hpred := List.of_mem_filter hmem2
        rw [hwv] at hpred
        simp [hck] at hpred
      rw [dictUpdate_get_of_none _ _ _ hnone]
      exact hck
    · have hmemTC : (k, v) ∈ policiesToCreate policies s := by
        rw [policiesToCreate]
        exact List.mem_filter.mpr ⟨hkv, by simp [hck]⟩
      have hndTC := keys_policiesToCreate_nodup policies s hnd
      have hgetTC : dictGet (policiesToCreate policies s) k = some v :=
        mem_dictGet_of_nodup _ k v hndTC hmemTC
      exact dictUpdate_get_of_some _ _ _ _ hgetTC hndTC
  · rw [policiesToDelete]
    rw [List.filter_eq_nil_iff]
    intro n hn
    simp only [Bool.and_eq_true, Bool.not_eq_true', not_and]
    intro hdp hkey
    simp only [listNames] at hn
    obtain ⟨hn2, hn_not_td⟩ := mem_names_foldl_dictRemove _ _ _ hn
    rcases mem_names_dictUpdate _ _ _ hn2 with h3 | h3
    · exact hn_not_td (by
        rw [policiesToDelete]
        refine List.mem_filter.mpr ⟨h3, ?_⟩
        simp [hdp, hkey])
    · have : n ∈ policies.map Prod.fst :=
        (List.Sublist.map Prod.fst (List.filter_sublist policies)).mem h3
      rw [← hasKey_iff_mem] at this
      rw [this] at hkey
      cases hkey

theorem Changes.update_empty_empty :
    Changes.update Changes.empty Changes.empty = Changes.empty := rfl

/-- C2. With the provider honouring its contract (every mutating call
succeeds and takes effect, reads reflect the state), running `present`
twice in succession in live mode yields on the second call an outcome
with result true and empty changes, for every spec and initial state. -/
theorem present_idempotent (p : Prov) (hp : p.allOk) (name : String)
    (pd path : Option String) (policies : Dict) (pillars : List String)
    (cip dp : Bool) (s : ProvState) :
    (present p false name pd path policies pillars cip dp
        (present p false name pd path policies pillars cip dp s).2.1).1.result
      = some true ∧
    (present p false name pd path policies pillars cip dp
        (present p false name pd path policies pillars cip dp s).2.1).1.changes
      = Changes.empty := by
  obtain ⟨hcr, hua, hcp, has, hdis, hdpf, hdr, hcrp, hdrp⟩ := hp
  have hndM := mergedPolicies_keys_nodup p policies pillars
  cases cip with
  | true =>
    obtain ⟨hr1, hs1⟩ := rolePresent_live_allOk p name pd path s hcr hua
    obtain ⟨hr2, hs2⟩ := instanceProfilePresent_live_allOk p name
      (rolePresent p false name pd path s).2.1 hcp
    obtain ⟨hr3, hs3⟩ := instanceProfileAssociated_live_allOk p name
      (instanceProfilePresent p false name (rolePresent p false name pd path s).2.1).2.1 has
    obtain ⟨hr4, hs4⟩ := policiesPresent_live_allOk p name
      (mergedPolicies p policies pillars) dp
      (instanceProfileAssociated p false name
        (instanceProfilePresent p false name (rolePresent p false name pd path s).2.1).2.1).2.1
      hcrp hdrp
    obtain ⟨hpc, hpd2⟩ := policiesPresent_live_post p name
      (mergedPolicies p policies pillars) dp
      (instanceProfileAssociated p false name
        (instanceProfilePresent p false name (rolePresent p false name pd path s).2.1).2.1).2.1
      hcrp hdrp hndM
    have hsF : (present p false name pd path policies pillars true dp s).2.1 =
        (policiesPresent p false name (mergedPolicies p policies pillars) dp
          (instanceProfileAssociated p false name
            (instanceProfilePresent p false name
              (rolePresent p false name pd path s).2.1).2.1).2.1).2.1 := by
      simp [present, hr1, hr2, hr3]
    rw [← hsF] at hpc hpd2
    have hrole : (present p false name pd path policies pillars true dp s).2.1.role
        = some (pd.getD p.build_policy) := by
      rw [hsF, hs4, hs3, hs2, hs1]
    have hip : (present p false name pd path policies pillars true dp s).2.1.instance_profile
        = true := by
      rw [hsF, hs4, hs3, hs2]
    have hass : (present p false name pd path policies pillars true dp s).2.1.associated
        = true := by
      rw [hsF, hs4, hs3]
    set sF := (present p false name pd path policies pillars true dp s).2.1 with hsFd
    have n1 := rolePresent_noop p false name pd path sF hrole
    have n2 := instanceProfilePresent_noop p false name sF hip
    have n3 := instanceProfileAssociated_noop p false name sF hass
    have n4 := policiesPresent_noop p false name (mergedPolicies p policies pillars) dp
      sF hpc hpd2
    simp [present, n1, n2, n3, n4, mergeStep, retInit, Changes.update_empty_empty]
  | false =>
    obtain ⟨hr1, hs1⟩ := rolePresent_live_allOk p name pd path s hcr hua
    obtain ⟨hr4, hs4⟩ := policiesPresent_live_allOk p name
      (mergedPolicies p policies pillars) dp (rolePresent p false name pd path s).2.1
      hcrp hdrp
    obtain ⟨hpc, hpd2⟩ := policiesPresent_live_post p name
      (mergedPolicies p policies pillars) dp (rolePresent p false name pd path s).2.1
      hcrp hdrp hndM
    have hsF : (present p false name pd path policies pillars false dp s).2.1 =
        (policiesPresent p false name (mergedPolicies p policies pillars) dp
          (rolePresent p false name pd path s).2.1).2.1 := by
      simp [present, hr1]
    rw [← hsF] at hpc hpd2
    have hrole : (present p false name pd path policies pillars false dp s).2.1.role
        = some (pd.getD p.build_policy) := by
      rw [hsF, hs4, hs1]
    set sF := (present p false name pd path policies pillars false dp s).2.1 with hsFd
    have n1 := rolePresent_noop p false name pd path sF hrole
    have n4 := policiesPresent_noop p false name (mergedPolicies p policies pillars) dp
      sF hpc hpd2
    simp [present, n1, n4, mergeStep, retInit, Changes.update_empty_empty]

/-- Closed instance of C2: a fully succeeding provider, one desired
policy, converged by the first call; the second call reports result true
and no changes. -/
theorem present_idempotent_witness :
    (present provAll false "r" none none [("p", "D")] [] true true
        (present provAll false "r" none none [("p", "D")] [] true true cleanState).2.1).1.result
      = some true ∧
    (present provAll false "r" none none [("p", "D")] [] true true
        (present provAll false "r" none none [("p", "D")] [] true true cleanState).2.1).1.changes
      = Changes.empty :=
  present_idempotent provAll
    ⟨rfl, rfl, rfl, rfl, rfl, rfl, rfl, fun _ => rfl, fun _ => rfl⟩
    "r" none none [("p", "D")] [] true true cleanState

theorem rolePresent_changes_mut (p : Prov) (test : Bool) (name : String)
    (pd path : Option String) (s : ProvState)
    (h : (rolePresent p test name pd path s).1.changes ≠ Changes.empty) :
    ∃ c ∈ (rolePresent p test name pd path s).2.2, c.isMutating = true := by
  obtain ⟨sr, sip, sas, spol⟩ := s
  unfold rolePresent at *
  cases sr with
  | none =>
    by_cases ht : test = true
    · simp [ht] at h
    · by_cases hc : p.create_role_ok = true <;> simp_all [Call.isMutating]
  | some current =>
    by_cases he : current = pd.getD p.build_policy
    · simp [he] at h
    · by_cases ht : test = true
      · simp [he, ht] at h
      · by_cases hu : p.update_assume_ok = true
        · simp_all [Call.isMutating]
          exact ⟨_, Or.inr rfl, rfl⟩
        · simp_all [Call.isMutating]

theorem rolePresent_live_ne_none (p : Prov) (name : String) (pd path : Option String)
    (s : ProvState) : (rolePresent p false name pd path s).1.result ≠ none := by
  obtain ⟨sr, sip, sas, spol⟩ := s
  unfold rolePresent
  cases sr with
  | none => by_cases hc : p.create_role_ok = true <;> simp [hc]
  | some current =>
    by_cases he : current = pd.getD p.build_policy
    · simp [he]
    · by_cases hu : p.update_assume_ok = true <;> simp [he, hu]

theorem rolePresent_dry_ne_false (p : Prov) (name : String) (pd path : Option String)
    (s : ProvState) : (rolePresent p true name pd path s).1.result ≠ some false := by
  obtain ⟨sr, sip, sas, spol⟩ := s
  unfold rolePresent
  cases sr with
  | none => simp
  | some current =>
    by_cases he : current = pd.getD p.build_policy <;> simp [he]

theorem rolePresent_dry_true_live_eq (p : Prov) (name : String) (pd path : Option String)
    (s : ProvState) (h : (rolePresent p true name pd path s).1.result = some true) :
    rolePresent p false name pd path s = rolePresent p true name pd path s := by
  obtain ⟨sr, sip, sas, spol⟩ := s
  unfold rolePresent at *
  cases sr with
  | none => simp at h
  | some current =>
    by_cases he : current = pd.getD p.build_policy
    · simp [he]
    · simp [he] at h

theorem rolePresent_dry_pending_live_mut (p : Prov) (name : String)
    (pd path : Option String) (s : ProvState)
    (h : (rolePresent p true name pd path s).1.result = none) :
    ∃ c ∈ (rolePresent p false name pd path s).2.2, c.isMutating = true := by
  obtain ⟨sr, sip, sas, spol⟩ := s
  unfold rolePresent at *
  cases sr with
  | none =>
    by_cases hc : p.create_role_ok = true <;> simp [hc, Call.isMutating]
  | some current =>
    by_cases he : current = pd.getD p.build_policy
    · simp [he] at h
    · by_cases hu : p.update_assume_ok = true <;> simp [he, hu, Call.isMutating] <;>
        exact ⟨_, Or.inr rfl, rfl⟩

theorem instanceProfilePresent_changes_mut (p : Prov) (test : Bool) (name : String)
    (s : ProvState)
    (h : (instanceProfilePresent p test name s).1.changes ≠ Changes.empty) :
    ∃ c ∈ (instanceProfilePresent p test name s).2.2, c.isMutating = true := by
  obtain ⟨sr, sip, sas, spol⟩ := s
  unfold instanceProfilePresent at *
  cases sip
  · by_cases ht : test = true
    · simp [ht] at h
    · by_cases hc : p.create_profile_ok = true <;> simp_all [Call.isMutating]
  · simp at h

theorem instanceProfilePresent_live_ne_none (p : Prov) (name : String) (s : ProvState) :
    (instanceProfilePresent p false name s).1.result ≠ none := by
  obtain ⟨sr, sip, sas, spol⟩ := s
  unfold instanceProfilePresent
  cases sip
  · by_cases hc : p.create_profile_ok = true <;> simp [hc]
  · simp

theorem instanceProfilePresent_dry_ne_false (p : Prov) (name : String) (s : ProvState) :
    (instanceProfilePresent p true name s).1.result ≠ some false := by
  obtain ⟨sr, sip, sas, spol⟩ := s
  unfold instanceProfilePresent
  cases sip <;> simp

theorem instanceProfilePresent_dry_true_live_eq (p : Prov) (name : String) (s : ProvState)
    (h : (instanceProfilePresent p true name s).1.result = some true) :
    instanceProfilePresent p false name s = instanceProfilePresent p true name s := by
  obtain ⟨sr, sip, sas, spol⟩ := s
  unfold instanceProfilePresent at *
  cases sip
  · simp at h
  · simp

theorem instanceProfilePresent_dry_pending_live_mut (p : Prov) (name : String)
    (s : ProvState) (h : (instanceProfilePresent p true name s).1.result = none) :
    ∃ c ∈ (instanceProfilePresent p false name s).2.2, c.isMutating = true := by
  obtain ⟨sr, sip, sas, spol⟩ := s
  unfold instanceProfilePresent at *
  cases sip
  · by_cases hc : p.create_profile_ok = true <;> simp [hc, Call.isMutating]
  · simp at h

theorem instanceProfileAssociated_changes_mut (p : Prov) (test : Bool) (name : String)
    (s : ProvState)
    (h : (instanceProfileAssociated p test name s).1.changes ≠ Changes.empty) :
    ∃ c ∈ (instanceProfileAssociated p test name s).2.2, c.isMutating = true := by
  obtain ⟨sr, sip, sas, spol⟩ := s
  unfold instanceProfileAssociated at *
  cases sas
  · by_cases ht : test = true
    · simp [ht] at h
    · by_cases hc : p.associate_ok = true <;> simp_all [Call.isMutating]
  · simp at h

theorem instanceProfileAssociated_live_ne_none (p : Prov) (name : String) (s : ProvState) :
    (instanceProfileAssociated p false name s).1.result ≠ none := by
  obtain ⟨sr, sip, sas, spol⟩ := s
  unfold instanceProfileAssociated
  cases sas
  · by_cases hc : p.associate_ok = true <;> simp [hc]
  · simp

theorem instanceProfileAssociated_dry_ne_false (p : Prov) (name : String) (s : ProvState) :
    (instanceProfileAssociated p true name s).1.result ≠ some false := by
  obtain ⟨sr, sip, sas, spol⟩ := s
  unfold instanceProfileAssociated
  cases sas <;> simp

theorem instanceProfileAssociated_dry_true_live_eq (p : Prov) (name : String)
    (s : ProvState) (h : (instanceProfileAssociated p true name s).1.result = some true) :
    instanceProfileAssociated p false name s = instanceProfileAssociated p true name s := by
  obtain ⟨sr, sip, sas, spol⟩ := s
  unfold instanceProfileAssociated at *
  cases sas
  · simp at h
  · simp

theorem instanceProfileAssociated_dry_pending_live_mut (p : Prov) (name : String)
    (s : ProvState) (h : (instanceProfileAssociated p true name s).1.result = none) :
    ∃ c ∈ (instanceProfileAssociated p false name s).2.2, c.isMutating = true := by
  obtain ⟨sr, sip, sas, spol⟩ := s
  unfold instanceProfileAssociated at *
  cases sas
  · by_cases hc : p.associate_ok = true <;> simp [hc, Call.isMutating]
  · simp at h

theorem instanceProfileDisassociated_changes_mut (p : Prov) (test : Bool) (name : String)
    (s : ProvState)
    (h : (instanceProfileDisassociated p test name s).1.changes ≠ Changes.empty) :
    ∃ c ∈ (instanceProfileDisassociated p test name s).2.2, c.isMutating = true := by
  obtain ⟨sr, sip, sas, spol⟩ := s
  unfold instanceProfileDisassociated at *
  cases sas
  · simp at h
  · by_cases ht : test = true
    · simp [ht] at h
    · by_cases hc : p.disassociate_ok = true <;> simp_all [Call.isMutating]

theorem instanceProfileDisassociated_live_ne_none (p : Prov) (name : String)
    (s : ProvState) : (instanceProfileDisassociated p false name s).1.result ≠ none := by
  obtain ⟨sr, sip, sas, spol⟩ := s
  unfold instanceProfileDisassociated
  cases sas
  · simp
  · by_cases hc : p.disassociate_ok = true <;> simp [hc]

theorem instanceProfileDisassociated_dry_ne_false (p : Prov) (name : String)
    (s : ProvState) : (instanceProfileDisassociated p true name s).1.result ≠ some false := by
  obtain ⟨sr, sip, sas, spol⟩ := s
  unfold instanceProfileDisassociated
  cases sas <;> simp

theorem instanceProfileDisassociated_dry_true_live_eq (p : Prov) (name : String)
    (s : ProvState)
    (h : (instanceProfileDisassociated p true name s).1.result = some true) :
    instanceProfileDisassociated p false name s
      = instanceProfileDisassociated p true name s := by
  obtain ⟨sr, sip, sas, spol⟩ := s
  unfold instanceProfileDisassociated at *
  cases sas
  · simp
  · simp at h

theorem instanceProfileDisassociated_dry_pending_live_mut (p : Prov) (name : String)
    (s : ProvState) (h : (instanceProfileDisassociated p true name s).1.result = none) :
    ∃ c ∈ (instanceProfileDisassociated p false name s).2.2, c.isMutating = true := by
  obtain ⟨sr, sip, sas, spol⟩ := s
  unfold instanceProfileDisassociated at *
  cases sas
  · simp at h
  · by_cases hc : p.disassociate_ok = true <;> simp [hc, Call.isMutating]

theorem instanceProfileAbsent_changes_mut (p : Prov) (test : Bool) (name : String)
    (s : ProvState)
    (h : (instanceProfileAbsent p test name s).1.changes ≠ Changes.empty) :
    ∃ c ∈ (instanceProfileAbsent p test name s).2.2, c.isMutating = true := by
  obtain ⟨sr, sip, sas, spol⟩ := s
  unfold instanceProfileAbsent at *
  cases sip
  · simp at h
  · by_cases ht : test = true
    · simp [ht] at h
    · by_cases hc : p.delete_profile_ok = true <;> simp_all [Call.isMutating]

theorem instanceProfileAbsent_live_ne_none (p : Prov) (name : String) (s : ProvState) :
    (instanceProfileAbsent p false name s).1.result ≠ none := by
  obtain ⟨sr, sip, sas, spol⟩ := s
  unfold instanceProfileAbsent
  cases sip
  · simp
  · by_cases hc : p.delete_profile_ok = true <;> simp [hc]

theorem instanceProfileAbsent_dry_ne_false (p : Prov) (name : String) (s : ProvState) :
    (instanceProfileAbsent p true name s).1.result ≠ some false := by
  obtain ⟨sr, sip, sas, spol⟩ := s
  unfold instanceProfileAbsent
  cases sip <;> simp

theorem instanceProfileAbsent_dry_true_live_eq (p : Prov) (name : String) (s : ProvState)
    (h : (instanceProfileAbsent p true name s).1.result = some true) :
    instanceProfileAbsent p false name s = instanceProfileAbsent p true name s := by
  obtain ⟨sr, sip, sas, spol⟩ := s
  unfold instanceProfileAbsent at *
  cases sip
  · simp
  · simp at h

theorem instanceProfileAbsent_dry_pending_live_mut (p : Prov) (name : String)
    (s : ProvState) (h : (instanceProfileAbsent p true name s).1.result = none) :
    ∃ c ∈ (instanceProfileAbsent p false name s).2.2, c.isMutating = true := by
  obtain ⟨sr, sip, sas, spol⟩ := s
  unfold instanceProfileAbsent at *
  cases sip
  · simp at h
  · by_cases hc : p.delete_profile_ok = true <;> simp [hc, Call.isMutating]

theorem roleAbsent_changes_mut (p : Prov) (test : Bool) (name : String) (s : ProvState)
    (h : (roleAbsent p test name s).1.changes ≠ Changes.empty) :
    ∃ c ∈ (roleAbsent p test name s).2.2, c.isMutating = true := by
  obtain ⟨sr, sip, sas, spol⟩ := s
  unfold roleAbsent at *
  cases sr with
  | none => simp at h
  | some current =>
    by_cases ht : test = true
    · simp [ht] at h
    · by_cases hc : p.delete_role_ok = true <;> simp_all [Call.isMutating]

theorem roleAbsent_live_ne_none (p : Prov) (name : String) (s : ProvState) :
    (roleAbsent p false name s).1.result ≠ none := by
  obtain ⟨sr, sip, sas, spol⟩ := s
  unfold roleAbsent
  cases sr with
  | none => simp
  | some current => by_cases hc : p.delete_role_ok = true <;> simp [hc]

theorem roleAbsent_dry_ne_false (p : Prov) (name : String) (s : ProvState) :
    (roleAbsent p true name s).1.result ≠ some false := by
  obtain ⟨sr, sip, sas, spol⟩ := s
  unfold roleAbsent
  cases sr <;> simp

theorem roleAbsent_dry_true_live_eq (p : Prov) (name : String) (s : ProvState)
    (h : (roleAbsent p true name s).1.result = some true) :
    roleAbsent p false name s = roleAbsent p true name s := by
  obtain ⟨sr, sip, sas, spol⟩ := s
  unfold roleAbsent at *
  cases sr with
  | none => simp
  | some current => simp at h

theorem roleAbsent_dry_pending_live_mut (p : Prov) (name : String) (s : ProvState)
    (h : (roleAbsent p true name s).1.result = none) :
    ∃ c ∈ (roleAbsent p false name s).2.2, c.isMutating = true := by
  obtain ⟨sr, sip, sas, spol⟩ := s
  unfold roleAbsent at *
  cases sr with
  | none => simp at h
  | some current => by_cases hc : p.delete_role_ok = true <;> simp [hc, Call.isMutating]

theorem applyCreates_trace_cons (p : Prov) (name k v : String) (tl : Dict)
    (s : ProvState) :
    ∃ t, (applyCreates p name ((k, v) :: tl) s).2.2
      = Call.create_role_policy name k v :: t := by
  by_cases hok : p.create_role_policy_ok k = true <;> simp [applyCreates, hok]

theorem applyDeletes_trace_cons (p : Prov) (name n1 : String) (tl : List String)
    (s : ProvState) :
    ∃ t, (applyDeletes p name (n1 :: tl) s).2.2
      = Call.delete_role_policy name n1 :: t := by
  by_cases hok : p.delete_role_policy_ok n1 = true <;> simp [applyDeletes, hok]

theorem policiesPresent_live_mem_creates (p : Prov) (name : String) (policies : Dict)
    (dp : Bool) (s : ProvState)
    (hne : ¬((policiesToCreate policies s).isEmpty
        && (policiesToDelete policies dp s).isEmpty) = true)
    (c : Call) (hc : c ∈ (applyCreates p name (policiesToCreate policies s) s).2.2) :
    c ∈ (policiesPresent p false name policies dp s).2.2 := by
  simp only [policiesPresent]
  rw [if_neg (by simpa using hne), if_neg (show ¬false = true by simp)]
  split
  · rename_i heq
    rw [heq] at hc
    simp only [List.mem_append]
    exact Or.inl (Or.inr hc)
  · rename_i heq
    split <;> rename_i heq2 <;> rw [heq] at hc <;> simp only [List.mem_append] <;>
      exact Or.inl (Or.inl (Or.inr hc))

theorem policiesPresent_live_mem_deletes (p : Prov) (name : String) (policies : Dict)
    (dp : Bool) (s : ProvState) (hcr : policiesToCreate policies s = [])
    (c : Call) (hc : c ∈ (applyDeletes p name (policiesToDelete policies dp s) s).2.2) :
    c ∈ (policiesPresent p false name policies dp s).2.2 := by
  by_cases hcond : ((policiesToCreate policies s).isEmpty
      && (policiesToDelete policies dp s).isEmpty) = true
  · have hdel : policiesToDelete policies dp s = [] := by
      rcases Bool.and_eq_true .. |>.mp hcond with ⟨-, hb⟩
      exact List.isEmpty_iff.mp hb
    rw [hdel] at hc
    simp [applyDeletes] at hc
  · simp only [policiesPresent]
    rw [if_neg (by simpa using hcond), if_neg (show ¬false = true by simp), hcr]
    simp only [applyCreates]
    split <;> rename_i heq <;> rw [heq] at hc <;> simp only [List.mem_append] <;>
      exact Or.inl (Or.inr hc)

theorem policiesPresent_live_has_mut (p : Prov) (name : String) (policies : Dict)
    (dp : Bool) (s : ProvState)
    (hne : ¬((policiesToCreate policies s).isEmpty
        && (policiesToDelete policies dp s).isEmpty) = true) :
    ∃ c ∈ (policiesPresent p false name policies dp s).2.2, c.isMutating = true := by
  rcases hc : policiesToCreate policies s with _ | ⟨⟨k, v⟩, tl⟩
  · have hd : policiesToDelete policies dp s ≠ [] := by
      intro he
      exact hne (by simp [hc, he])
    rcases hdl : policiesToDelete policies dp s with _ | ⟨n1, tl2⟩
    · exact absurd hdl hd
    · obtain ⟨t, ht⟩ := applyDeletes_trace_cons p name n1 tl2 s
      refine ⟨Call.delete_role_policy name n1, ?_, rfl⟩
      apply policiesPresent_live_mem_deletes p name policies dp s hc
      rw [hdl, ht]
      exact List.mem_cons_self _ _
  · obtain ⟨t, ht⟩ := applyCreates_trace_cons p name k v tl s
    refine ⟨Call.create_role_policy name k v, ?_, rfl⟩
    apply policiesPresent_live_mem_creates p name policies dp s hne
    rw [hc, ht]
    exact List.mem_cons_self _ _

theorem policiesPresent_changes_mut (p : Prov) (test : Bool) (name : String)
    (policies : Dict) (dp : Bool) (s : ProvState)
    (h : (policiesPresent p test name policies dp s).1.changes ≠ Changes.empty) :
    ∃ c ∈ (policiesPresent p test name policies dp s).2.2, c.isMutating = true := by
  by_cases hcond : ((policiesToCreate policies s).isEmpty
      && (policiesToDelete policies dp s).isEmpty) = true
  · simp [policiesPresent, hcond] at h
  · by_cases ht : test = true
    · simp [policiesPresent, hcond, ht] at h
    · have ht2 : test = false := by simpa using ht
      subst ht2
      exact policiesPresent_live_has_mut p name policies dp s hcond

theorem policiesPresent_live_ne_none (p : Prov) (name : String) (policies : Dict)
    (dp : Bool) (s : ProvState) :
    (policiesPresent p false name policies dp s).1.result ≠ none := by
  by_cases hcond : ((policiesToCreate policies s).isEmpty
      && (policiesToDelete policies dp s).isEmpty) = true
  · simp [policiesPresent, hcond]
  · simp only [policiesPresent]
    rw [if_neg (by simpa using hcond), if_neg (show ¬false = true by simp)]
    split
    · simp
    · split <;> simp

theorem policiesPresent_dry_ne_false (p : Prov) (name : String) (policies : Dict)
    (dp : Bool) (s : ProvState) :
    (policiesPresent p true name policies dp s).1.result ≠ some false := by
  by_cases hcond : ((policiesToCreate policies s).isEmpty
      && (policiesToDelete policies dp s).isEmpty) = true <;>
    simp [policiesPresent, hcond]

theorem policiesPresent_dry_true_live_eq (p : Prov) (name : String) (policies : Dict)
    (dp : Bool) (s : ProvState)
    (h : (policiesPresent p true name policies dp s).1.result = some true) :
    policiesPresent p false name policies dp s
      = policiesPresent p true name policies dp s := by
  by_cases hcond : ((policiesToCreate policies s).isEmpty
      && (policiesToDelete policies dp s).isEmpty) = true
  · simp [policiesPresent, hcond]
  · simp [policiesPresent, hcond] at h

theorem policiesPresent_dry_pending_live_mut (p : Prov) (name : String) (policies : Dict)
    (dp : Bool) (s : ProvState)
    (h : (policiesPresent p true name policies dp s).1.result = none) :
    ∃ c ∈ (policiesPresent p false name policies dp s).2.2, c.isMutating = true := by
  have hne : ¬((policiesToCreate policies s).isEmpty
      && (policiesToDelete policies dp s).isEmpty) = true := by
    intro hc
    simp [policiesPresent, hc] at h
  exact policiesPresent_live_has_mut p name policies dp s hne

theorem applyDeletes_mem_head (p : Prov) (name n1 : String) (tl : List String)
    (s : ProvState) :
    Call.delete_role_policy name n1 ∈ (applyDeletes p name (n1 :: tl) s).2.2 := by
  by_cases hok : p.delete_role_policy_ok n1 = true <;> simp [applyDeletes, hok]

theorem policiesAbsent_live_has_mut (p : Prov) (name : String) (s : ProvState)
    (hl : (listNames s).isEmpty ≠ true) :
    ∃ c ∈ (policiesAbsent p false name s).2.2, c.isMutating = true := by
  rcases hlst : listNames s with _ | ⟨n1, tl⟩
  · rw [hlst] at hl
    simp at hl
  · have hm := applyDeletes_mem_head p name n1 tl s
    refine ⟨Call.delete_role_policy name n1, ?_, rfl⟩
    simp only [policiesAbsent, hlst]
    rw [if_neg (by simp), if_neg (show ¬false = true by simp)]
    rcases hD : applyDeletes p name (n1 :: tl) s with ⟨res, s2, t2⟩
    rw [hD] at hm
    have hm2 : Call.delete_role_policy name n1 ∈ t2 := hm
    rcases res with _ | f <;> simp [hm2]

theorem policiesAbsent_changes_mut (p : Prov) (test : Bool) (name : String)
    (s : ProvState)
    (h : (policiesAbsent p test name s).1.changes ≠ Changes.empty) :
    ∃ c ∈ (policiesAbsent p test name s).2.2, c.isMutating = true := by
  by_cases hl : (listNames s).isEmpty = true
  · simp [policiesAbsent, hl] at h
  · by_cases ht : test = true
    · simp [policiesAbsent, hl, ht] at h
    · have ht2 : test = false := by simpa using ht
      subst ht2
      exact policiesAbsent_live_has_mut p name s hl

theorem policiesAbsent_live_ne_none (p : Prov) (name : String) (s : ProvState) :
    (policiesAbsent p false name s).1.result ≠ none := by
  by_cases hl : (listNames s).isEmpty = true
  · simp [policiesAbsent, hl]
  · simp only [policiesAbsent]
    rw [if_neg hl, if_neg (show ¬false = true by simp)]
    split <;> simp

theorem policiesAbsent_dry_ne_false (p : Prov) (name : String) (s : ProvState) :
    (policiesAbsent p true name s).1.result ≠ some false := by
  by_cases hl : (listNames s).isEmpty = true <;> simp [policiesAbsent, hl]

theorem policiesAbsent_dry_true_live_eq (p : Prov) (name : String) (s : ProvState)
    (h : (policiesAbsent p true name s).1.result = some true) :
    policiesAbsent p false name s = policiesAbsent p true name s := by
  by_cases hl : (listNames s).isEmpty = true
  · simp [policiesAbsent, hl]
  · simp [policiesAbsent, hl] at h

theorem policiesAbsent_dry_pending_live_mut (p : Prov) (name : String) (s : ProvState)
    (h : (policiesAbsent p true name s).1.result = none) :
    ∃ c ∈ (policiesAbsent p false name s).2.2, c.isMutating = true := by
  have hl : (listNames s).isEmpty ≠ true := by
    intro hc
    simp [policiesAbsent, hc] at h
  exact policiesAbsent_live_has_mut p name s hl

theorem mergeStep_changes (a r : Ret) :
    (mergeStep a r).changes = a.changes.update r.changes := rfl

theorem update_ne_empty (c1 c2 : Changes) (h : Changes.update c1 c2 ≠ Changes.empty) :
    c1 ≠ Changes.empty ∨ c2 ≠ Changes.empty := by
  by_cases h1 : c1 = Changes.empty
  · by_cases h2 : c2 = Changes.empty
    · subst h1
      subst h2
      exact absurd Changes.update_empty_empty h
    · exact Or.inr h2
  · exact Or.inl h1

theorem mergeRes_none (a r : Option Bool) (h : (if r = some true then a else r) = none) :
    a = none ∨ r = none := by
  by_cases hr : r = some true
  · rw [if_pos hr] at h
    exact Or.inl h
  · rw [if_neg hr] at h
    exact Or.inr h

theorem present_trace_mem1 (p : Prov) (test : Bool) (name : String)
    (pd path : Option String) (policies : Dict) (pillars : List String)
    (cip dp : Bool) (s : ProvState) (c : Call)
    (hc : c ∈ (rolePresent p test name pd path s).2.2) :
    c ∈ (present p test name pd path policies pillars cip dp s).2.2 := by
  rcases e1 : rolePresent p test name pd path s with ⟨r1, s1, t1⟩
  rw [e1] at hc
  simp only [present, e1]
  repeat' split
  all_goals simp only [List.mem_append]
  all_goals exact Or.inl (by simp [List.mem_append, hc])

theorem present_trace_mem2 (p : Prov) (test : Bool) (name : String)
    (pd path : Option String) (policies : Dict) (pillars : List String)
    (dp : Bool) (s : ProvState) (c : Call)
    (hnf : (rolePresent p test name pd path s).1.result ≠ some false)
    (hc : c ∈ (instanceProfilePresent p test name
        (rolePresent p test name pd path s).2.1).2.2) :
    c ∈ (present p test name pd path policies pillars true dp s).2.2 := by
  rcases e1 : rolePresent p test name pd path s with ⟨r1, s1, t1⟩
  simp only [e1] at hc hnf
  rcases e2 : instanceProfilePresent p test name s1 with ⟨r2, s2, t2⟩
  simp only [e2] at hc
  simp only [present, e1, e2]
  rw [if_neg hnf, if_pos trivial]
  repeat' split
  all_goals simp [List.mem_append, hc]

theorem present_trace_mem3 (p : Prov) (test : Bool) (name : String)
    (pd path : Option String) (policies : Dict) (pillars : List String)
    (dp : Bool) (s : ProvState) (c : Call)
    (hnf : (rolePresent p test name pd path s).1.result ≠ some false)
    (hnf2 : (instanceProfilePresent p test name
        (rolePresent p test name pd path s).2.1).1.result ≠ some false)
    (hc : c ∈ (instanceProfileAssociated p test name
        (instanceProfilePresent p test name
          (rolePresent p test name pd path s).2.1).2.1).2.2) :
    c ∈ (present p test name pd path policies pillars true dp s).2.2 := by
  rcases e1 : rolePresent p test name pd path s with ⟨r1, s1, t1⟩
  simp only [e1] at hc hnf hnf2
  rcases e2 : instanceProfilePresent p test name s1 with ⟨r2, s2, t2⟩
  simp only [e2] at hc hnf2
  rcases e3 : instanceProfileAssociated p test name s2 with ⟨r3, s3, t3⟩
  simp only [e3] at hc
  simp only [present, e1, e2, e3]
  rw [if_neg hnf, if_pos trivial, if_neg hnf2]
  repeat' split
  all_goals simp [List.mem_append, hc]

theorem present_trace_mem4 (p : Prov) (test : Bool) (name : String)
    (pd path : Option String) (policies : Dict) (pillars : List String)
    (dp : Bool) (s : ProvState) (c : Call)
    (hnf : (rolePresent p test name pd path s).1.result ≠ some false)
    (hnf2 : (instanceProfilePresent p test name
        (rolePresent p test name pd path s).2.1).1.result ≠ some false)
    (hnf3 : (instanceProfileAssociated p test name
        (instanceProfilePresent p test name
          (rolePresent p test name pd path s).2.1).2.1).1.result ≠ some false)
    (hc : c ∈ (policiesPresent p test name (mergedPolicies p policies pillars) dp
        (instanceProfileAssociated p test name
          (instanceProfilePresent p test name
            (rolePresent p test name pd path s).2.1).2.1).2.1).2.2) :
    c ∈ (present p test name pd path policies pillars true dp s).2.2 := by
  rcases e1 : rolePresent p test name pd path s with ⟨r1, s1, t1⟩
  simp only [e1] at hc hnf hnf2 hnf3
  rcases e2 : instanceProfilePresent p test name s1 with ⟨r2, s2, t2⟩
  simp only [e2] at hc hnf2 hnf3
  rcases e3 : instanceProfileAssociated p test name s2 with ⟨r3, s3, t3⟩
  simp only [e3] at hc hnf3
  rcases e4 : policiesPresent p test name (mergedPolicies p policies pillars) dp s3
    with ⟨r4, s4, t4⟩
  simp only [e4] at hc
  simp only [present, e1, e2, e3, e4]
  rw [if_neg hnf, if_pos trivial, if_neg hnf2, if_neg hnf3]
  simp [List.mem_append, hc]

theorem present_trace_mem4_noprofile (p : Prov) (test : Bool) (name : String)
    (pd path : Option String) (policies : Dict) (pillars : List String)
    (dp : Bool) (s : ProvState) (c : Call)
    (hnf : (rolePresent p test name pd path s).1.result ≠ some false)
    (hc : c ∈ (policiesPresent p test name (mergedPolicies p policies pillars) dp
        (rolePresent p test name pd path s).2.1).2.2) :
    c ∈ (present p test name pd path policies pillars false dp s).2.2 := by
  rcases e1 : rolePresent p test name pd path s with ⟨r1, s1, t1⟩
  simp only [e1] at hc hnf
  rcases e4 : policiesPresent p test name (mergedPolicies p policies pillars) dp s1
    with ⟨r4, s4, t4⟩
  simp only [e4] at hc
  simp only [present, e1, e4]
  rw [if_neg hnf, if_neg (show ¬false = true by simp)]
  simp [List.mem_append, hc]

theorem absent_trace_mem1 (p : Prov) (test : Bool) (name : String) (s : ProvState)
    (c : Call) (hc : c ∈ (policiesAbsent p test name s).2.2) :
    c ∈ (absent p test name s).2.2 := by
  rcases e1 : policiesAbsent p test name s with ⟨r1, s1, t1⟩
  rw [e1] at hc
  simp only [absent, e1]
  repeat' split
  all_goals simp [List.mem_append, hc]

theorem absent_trace_mem2 (p : Prov) (test : Bool) (name : String) (s : ProvState)
    (c : Call)
    (hnf : (policiesAbsent p test name s).1.result ≠ some false)
    (hc : c ∈ (instanceProfileDisassociated p test name
        (policiesAbsent p test name s).2.1).2.2) :
    c ∈ (absent p test name s).2.2 := by
  rcases e1 : policiesAbsent p test name s with ⟨r1, s1, t1⟩
  simp only [e1] at hc hnf
  rcases e2 : instanceProfileDisassociated p test name s1 with ⟨r2, s2, t2⟩
  simp only [e2] at hc
  simp only [absent, e1, e2]
  rw [if_neg hnf]
  repeat' split
  all_goals simp [List.mem_append, hc]

theorem absent_trace_mem3 (p : Prov) (test : Bool) (name : String) (s : ProvState)
    (c : Call)
    (hnf : (policiesAbsent p test name s).1.result ≠ some false)
    (hnf2 : (instanceProfileDisassociated p test name
        (policiesAbsent p test name s).2.1).1.result ≠ some false)
    (hc : c ∈ (instanceProfileAbsent p test name
        (instanceProfileDisassociated p test name
          (policiesAbsent p test name s).2.1).2.1).2.2) :
    c ∈ (absent p test name s).2.2 := by
  rcases e1 : policiesAbsent p test name s with ⟨r1, s1, t1⟩
  simp only [e1] at hc hnf hnf2
  rcases e2 : instanceProfileDisassociated p test name s1 with ⟨r2, s2, t2⟩
  simp only [e2] at hc hnf2
  rcases e3 : instanceProfileAbsent p test name s2 with ⟨r3, s3, t3⟩
  simp only [e3] at hc
  simp only [absent, e1, e2, e3]
  rw [if_neg hnf, if_neg hnf2]
  repeat' split
  all_goals simp [List.mem_append, hc]

theorem absent_trace_mem4 (p : Prov) (test : Bool) (name : String) (s : ProvState)
    (c : Call)
    (hnf : (policiesAbsent p test name s).1.result ≠ some false)
    (hnf2 : (instanceProfileDisassociated p test name
        (policiesAbsent p test name s).2.1).1.result ≠ some false)
    (hnf3 : (instanceProfileAbsent p test name
        (instanceProfileDisassociated p test name
          (policiesAbsent p test name s).2.1).2.1).1.result ≠ some false)
    (hc : c ∈ (roleAbsent p test name
        (instanceProfileAbsent p test name
          (instanceProfileDisassociated p test name
            (policiesAbsent p test name s).2.1).2.1).2.1).2.2) :
    c ∈ (absent p test name s).2.2 := by
  rcases e1 : policiesAbsent p test name s with ⟨r1, s1, t1⟩
  simp only [e1] at hc hnf hnf2 hnf3
  rcases e2 : instanceProfileDisassociated p test name s1 with ⟨r2, s2, t2⟩
  simp only [e2] at hc hnf2 hnf3
  rcases e3 : instanceProfileAbsent p test name s2 with ⟨r3, s3, t3⟩
  simp only [e3] at hc hnf3
  rcases e4 : roleAbsent p test name s3 with ⟨r4, s4, t4⟩
  simp only [e4] at hc
  simp only [absent, e1, e2, e3, e4]
  rw [if_neg hnf, if_neg hnf2, if_neg hnf3]
  simp [List.mem_append, hc]

theorem optionBool_val (x : Option Bool) : x = none ∨ x = some false ∨ x = some true := by
  rcases x with _ | b
  · exact Or.inl rfl
  · cases b
    · exact Or.inr (Or.inl rfl)
    · exact Or.inr (Or.inr rfl)

theorem present_changes_mut (p : Prov) (test : Bool) (name : String)
    (pd path : Option String) (policies : Dict) (pillars : List String)
    (cip dp : Bool) (s : ProvState)
    (h : (present p test name pd path policies pillars cip dp s).1.changes
      ≠ Changes.empty) :
    ∃ c ∈ (present p test name pd path policies pillars cip dp s).2.2,
      c.isMutating = true := by
  rcases e1 : rolePresent p test name pd path s with ⟨r1, s1, t1⟩
  have m1 : r1.changes ≠ Changes.empty → ∃ c ∈ t1, c.isMutating = true := by
    intro hch
    have h2 := rolePresent_changes_mut p test name pd path s (by simp [e1, hch])
    simpa [e1] using h2
  cases cip with
  | true =>
    rcases e2 : instanceProfilePresent p test name s1 with ⟨r2, s2, t2⟩
    have m2 : r2.changes ≠ Changes.empty → ∃ c ∈ t2, c.isMutating = true := by
      intro hch
      have h2 := instanceProfilePresent_changes_mut p test name s1 (by simp [e2, hch])
      simpa [e2] using h2
    rcases e3 : instanceProfileAssociated p test name s2 with ⟨r3, s3, t3⟩
    have m3 : r3.changes ≠ Changes.empty → ∃ c ∈ t3, c.isMutating = true := by
      intro hch
      have h2 := instanceProfileAssociated_changes_mut p test name s2 (by simp [e3, hch])
      simpa [e3] using h2
    rcases e4 : policiesPresent p test name (mergedPolicies p policies pillars) dp s3
      with ⟨r4, s4, t4⟩
    have m4 : r4.changes ≠ Changes.empty → ∃ c ∈ t4, c.isMutating = true := by
      intro hch
      have h2 := policiesPresent_changes_mut p test name
        (mergedPolicies p policies pillars) dp s3 (by simp [e4, hch])
      simpa [e4] using h2
    simp only [present, e1, e2, e3, e4] at h ⊢
    by_cases f1 : r1.result = some false
    · rw [if_pos f1] at h ⊢
      simp only [mergeStep_changes, retInit] at h
      rcases update_ne_empty _ _ h with h0 | hc1
      · exact absurd rfl h0
      · obtain ⟨c, hcm, hm⟩ := m1 hc1
        exact ⟨c, by simp [List.mem_append, hcm], hm⟩
    · rw [if_neg f1, if_pos trivial] at h ⊢
      by_cases f2 : r2.result = some false
      · rw [if_pos f2] at h ⊢
        simp only [mergeStep_changes, retInit] at h
        rcases update_ne_empty _ _ h with h' | hc2
        · rcases update_ne_empty _ _ h' with h0 | hc1
          · exact absurd rfl h0
          · obtain ⟨c, hcm, hm⟩ := m1 hc1
            exact ⟨c, by simp [List.mem_append, hcm], hm⟩
        · obtain ⟨c, hcm, hm⟩ := m2 hc2
          exact ⟨c, by simp [List.mem_append, hcm], hm⟩
      · rw [if_neg f2] at h ⊢
        by_cases f3 : r3.result = some false
        · rw [if_pos f3] at h ⊢
          simp only [mergeStep_changes, retInit] at h
          rcases update_ne_empty _ _ h with h' | hc3
          · rcases update_ne_empty _ _ h' with h'' | hc2
            · rcases update_ne_empty _ _ h'' with h0 | hc1
              · exact absurd rfl h0
              · obtain ⟨c, hcm, hm⟩ := m1 hc1
                exact ⟨c, by simp [List.mem_append, hcm], hm⟩
            · obtain ⟨c, hcm, hm⟩ := m2 hc2
              exact ⟨c, by simp [List.mem_append, hcm], hm⟩
          · obtain ⟨c, hcm, hm⟩ := m3 hc3
            exact ⟨c, by simp [List.mem_append, hcm], hm⟩
        · rw [if_neg f3] at h ⊢
          simp only [mergeStep_changes, retInit] at h
          rcases update_ne_empty _ _ h with h' | hc4
          · rcases update_ne_empty _ _ h' with h'' | hc3
            · rcases update_ne_empty _ _ h'' with h''' | hc2
              · rcases update_ne_empty _ _ h''' with h0 | hc1
                · exact absurd rfl h0
                · obtain ⟨c, hcm, hm⟩ := m1 hc1
                  exact ⟨c, by simp [List.mem_append, hcm], hm⟩
              · obtain ⟨c, hcm, hm⟩ := m2 hc2
                exact ⟨c, by simp [List.mem_append, hcm], hm⟩
            · obtain ⟨c, hcm, hm⟩ := m3 hc3
              exact ⟨c, by simp [List.mem_append, hcm], hm⟩
          · obtain ⟨c, hcm, hm⟩ := m4 hc4
            exact ⟨c, by simp [List.mem_append, hcm], hm⟩
  | false =>
    rcases e4 : policiesPresent p test name (mergedPolicies p policies pillars) dp s1
      with ⟨r4, s4, t4⟩
    have m4 : r4.changes ≠ Changes.empty → ∃ c ∈ t4, c.isMutating = true := by
      intro hch
      have h2 := policiesPresent_changes_mut p test name
        (mergedPolicies p policies pillars) dp s1 (by simp [e4, hch])
      simpa [e4] using h2
    simp only [present, e1, e4] at h ⊢
    by_cases f1 : r1.result = some false
    · rw [if_pos f1] at h ⊢
      simp only [mergeStep_changes, retInit] at h
      rcases update_ne_empty _ _ h with h0 | hc1
      · exact absurd rfl h0
      · obtain ⟨c, hcm, hm⟩ := m1 hc1
        exact ⟨c, by simp [List.mem_append, hcm], hm⟩
    · rw [if_neg f1, if_neg (show ¬false = true by simp)] at h ⊢
      simp only [mergeStep_changes, retInit] at h
      rcases update_ne_empty _ _ h with h' | hc4
      · rcases update_ne_empty _ _ h' with h0 | hc1
        · exact absurd rfl h0
        · obtain ⟨c, hcm, hm⟩ := m1 hc1
          exact ⟨c, by simp [List.mem_append, hcm], hm⟩
      · obtain ⟨c, hcm, hm⟩ := m4 hc4
        exact ⟨c, by simp [List.mem_append, hcm], hm⟩

theorem present_result_none (p : Prov) (test : Bool) (name : String)
    (pd path : Option String) (policies : Dict) (pillars : List String)
    (cip dp : Bool) (s : ProvState)
    (h : (present p test name pd path policies pillars cip dp s).1.result = none) :
    test = true := by
  by_cases ht : test = true
  · exact ht
  · exfalso
    have ht2 : test = false := by simpa using ht
    subst ht2
    rcases e1 : rolePresent p false name pd path s with ⟨r1, s1, t1⟩
    have n1 : r1.result ≠ none := by
      have h2 := rolePresent_live_ne_none p name pd path s
      simpa [e1] using h2
    cases cip with
    | true =>
      rcases e2 : instanceProfilePresent p false name s1 with ⟨r2, s2, t2⟩
      have n2 : r2.result ≠ none := by
        have h2 := instanceProfilePresent_live_ne_none p name s1
        simpa [e2] using h2
      rcases e3 : instanceProfileAssociated p false name s2 with ⟨r3, s3, t3⟩
      have n3 : r3.result ≠ none := by
        have h2 := instanceProfileAssociated_live_ne_none p name s2
        simpa [e3] using h2
      rcases e4 : policiesPresent p false name (mergedPolicies p policies pillars) dp s3
        with ⟨r4, s4, t4⟩
      have n4 : r4.result ≠ none := by
        have h2 := policiesPresent_live_ne_none p name
          (mergedPolicies p policies pillars) dp s3
        simpa [e4] using h2
      simp only [present, e1, e2, e3, e4] at h
      by_cases f1 : r1.result = some false
      · rw [if_pos f1] at h
        simp only [mergeStep_result, retInit] at h
        rcases mergeRes_none _ _ h with h0 | h0
        · cases h0
        · exact n1 h0
      · rw [if_neg f1, if_pos trivial] at h
        by_cases f2 : r2.result = some false
        · rw [if_pos f2] at h
          simp only [mergeStep_result, retInit] at h
          rcases mergeRes_none _ _ h with h' | h0
          · rcases mergeRes_none _ _ h' with h0 | h0
            · cases h0
            · exact n1 h0
          · exact n2 h0
        · rw [if_neg f2] at h
          by_cases f3 : r3.result = some false
          · rw [if_pos f3] at h
            simp only [mergeStep_result, retInit] at h
            rcases mergeRes_none _ _ h with h' | h0
            · rcases mergeRes_none _ _ h' with h'' | h0
              · rcases mergeRes_none _ _ h'' with h0 | h0
                · cases h0
                · exact n1 h0
              · exact n2 h0
            · exact n3 h0
          · rw [if_neg f3] at h
            simp only [mergeStep_result, retInit] at h
            rcases mergeRes_none _ _ h with h' | h0
            · rcases mergeRes_none _ _ h' with h'' | h0
              · rcases mergeRes_none _ _ h'' with h''' | h0
                · rcases mergeRes_none _ _ h''' with h0 | h0
                  · cases h0
                  · exact n1 h0
                · exact n2 h0
              · exact n3 h0
            · exact n4 h0
    | false =>
      rcases e4 : policiesPresent p false name (mergedPolicies p policies pillars) dp s1
        with ⟨r4, s4, t4⟩
      have n4 : r4.result ≠ none := by
        have h2 := policiesPresent_live_ne_none p name
          (mergedPolicies p policies pillars) dp s1
        simpa [e4] using h2
      simp only [present, e1, e4] at h
      by_cases f1 : r1.result = some false
      · rw [if_pos f1] at h
        simp only [mergeStep_result, retInit] at h
        rcases mergeRes_none _ _ h with h0 | h0
        · cases h0
        · exact n1 h0
      · rw [if_neg f1, if_neg (show ¬false = true by simp)] at h
        simp only [mergeStep_result, retInit] at h
        rcases mergeRes_none _ _ h with h' | h0
        · rcases mergeRes_none _ _ h' with h0 | h0
          · cases h0
          · exact n1 h0
        · exact n4 h0

theorem present_dry_pending_live_mut (p : Prov) (name : String)
    (pd path : Option String) (policies : Dict) (pillars : List String)
    (cip dp : Bool) (s : ProvState)
    (h : (present p true name pd path policies pillars cip dp s).1.result = none) :
    ∃ c ∈ (present p false name pd path policies pillars cip dp s).2.2,
      c.isMutating = true := by
  have hs1 := rolePresent_dry_state p name pd path s
  by_cases d1 : (rolePresent p true name pd path s).1.result = none
  · obtain ⟨c, hc, hm⟩ := rolePresent_dry_pending_live_mut p name pd path s d1
    exact ⟨c, present_trace_mem1 p false name pd path policies pillars cip dp s c hc, hm⟩
  · have d1t : (rolePresent p true name pd path s).1.result = some true := by
      rcases optionBool_val (rolePresent p true name pd path s).1.result with hv | hv | hv
      · exact absurd hv d1
      · exact absurd hv (rolePresent_dry_ne_false p name pd path s)
      · exact hv
    have l1 := rolePresent_dry_true_live_eq p name pd path s d1t
    have hnf1 : (rolePresent p false name pd path s).1.result ≠ some false := by
      rw [l1, d1t]
      simp
    have hls1 : (rolePresent p false name pd path s).2.1 = s := by rw [l1, hs1]
    cases cip with
    | true =>
      have hs2 := instanceProfilePresent_dry_state p name s
      have hs3 := instanceProfileAssociated_dry_state p name s
      by_cases d2 : (instanceProfilePresent p true name s).1.result = none
      · obtain ⟨c, hc, hm⟩ := instanceProfilePresent_dry_pending_live_mut p name s d2
        refine ⟨c, present_trace_mem2 p false name pd path policies pillars dp s c
          hnf1 ?_, hm⟩
        rw [hls1]
        exact hc
      · have d2t : (instanceProfilePresent p true name s).1.result = some true := by
          rcases optionBool_val (instanceProfilePresent p true name s).1.result
            with hv | hv | hv
          · exact absurd hv d2
          · exact absurd hv (instanceProfilePresent_dry_ne_false p name s)
          · exact hv
        have l2 := instanceProfilePresent_dry_true_live_eq p name s d2t
        have hnf2 : (instanceProfilePresent p false name
            (rolePresent p false name pd path s).2.1).1.result ≠ some false := by
          rw [hls1, l2, d2t]
          simp
        have hls2 : (instanceProfilePresent p false name
            (rolePresent p false name pd path s).2.1).2.1 = s := by
          rw [hls1, l2, hs2]
        by_cases d3 : (instanceProfileAssociated p true name s).1.result = none
        · obtain ⟨c, hc, hm⟩ := instanceProfileAssociated_dry_pending_live_mut p name s d3
          refine ⟨c, present_trace_mem3 p false name pd path policies pillars dp s c
            hnf1 hnf2 ?_, hm⟩
          rw [hls2]
          exact hc
        · have d3t : (instanceProfileAssociated p true name s).1.result = some true := by
            rcases optionBool_val (instanceProfileAssociated p true name s).1.result
              with hv | hv | hv
            · exact absurd hv d3
            · exact absurd hv (instanceProfileAssociated_dry_ne_false p name s)
            · exact hv
          have l3 := instanceProfileAssociated_dry_true_live_eq p name s d3t
          have hnf3 : (instanceProfileAssociated p false name
              (instanceProfilePresent p false name
                (rolePresent p false name pd path s).2.1).2.1).1.result ≠ some false := by
            rw [hls2, l3, d3t]
            simp
          have hls3 : (instanceProfileAssociated p false name
              (instanceProfilePresent p false name
                (rolePresent p false name pd path s).2.1).2.1).2.1 = s := by
            rw [hls2, l3, hs3]
          by_cases d4 : (policiesPresent p true name (mergedPolicies p policies pillars)
              dp s).1.result = none
          · obtain ⟨c, hc, hm⟩ := policiesPresent_dry_pending_live_mut p name
              (mergedPolicies p policies pillars) dp s d4
            refine ⟨c, present_trace_mem4 p false name pd path policies pillars dp s c
              hnf1 hnf2 hnf3 ?_, hm⟩
            rw [hls3]
            exact hc
          · exfalso
            have d4t : (policiesPresent p true name (mergedPolicies p policies pillars)
                dp s).1.result = some true := by
              rcases optionBool_val (policiesPresent p true name
                  (mergedPolicies p policies pillars) dp s).1.result with hv | hv | hv
              · exact absurd hv d4
              · exact absurd hv (policiesPresent_dry_ne_false p name
                  (mergedPolicies p policies pillars) dp s)
              · exact hv
            have pc := (present_cases p true name pd path policies pillars dp s).2.2.2
            rw [hs1, hs2, hs3] at pc
            have hres := (pc (by rw [d1t]; simp) (by rw [d2t]; simp)
              (by rw [d3t]; simp)).2
            rw [hres, d1t, d2t, d3t, d4t] at h
            exact absurd h (by decide)
    | false =>
      by_cases d4 : (policiesPresent p true name (mergedPolicies p policies pillars)
          dp s).1.result = none
      · obtain ⟨c, hc, hm⟩ := policiesPresent_dry_pending_live_mut p name
          (mergedPolicies p policies pillars) dp s d4
        refine ⟨c, present_trace_mem4_noprofile p false name pd path policies pillars
          dp s c hnf1 ?_, hm⟩
        rw [hls1]
        exact hc
      · exfalso
        have d4t : (policiesPresent p true name (mergedPolicies p policies pillars)
            dp s).1.result = some true := by
          rcases optionBool_val (policiesPresent p true name
              (mergedPolicies p policies pillars) dp s).1.result with hv | hv | hv
          · exact absurd hv d4
          · exact absurd hv (policiesPresent_dry_ne_false p name
              (mergedPolicies p policies pillars) dp s)
          · exact hv
        rcases e1 : rolePresent p true name pd path s with ⟨r1, s1x, t1⟩
        have d1t2 : r1.result = some true := by simpa [e1] using d1t
        have hs1x : s1x = s := by simpa [e1] using hs1
        simp only [present, e1] at h
        rw [hs1x] at h
        rcases e4 : policiesPresent p true name (mergedPolicies p policies pillars) dp s
          with ⟨r4, s4x, t4⟩
        have d4t2 : r4.result = some true := by simpa [e4] using d4t
        simp only [e4] at h
        rw [if_neg (show ¬r1.result = some false by rw [d1t2]; simp),
          if_neg (show ¬false = true by simp)] at h
        simp only [mergeStep_result, retInit] at h
        rw [d1t2, d4t2] at h
        simp at h

theorem absent_changes_mut (p : Prov) (test : Bool) (name : String) (s : ProvState)
    (h : (absent p test name s).1.changes ≠ Changes.empty) :
    ∃ c ∈ (absent p test name s).2.2, c.isMutating = true := by
  rcases e1 : policiesAbsent p test name s with ⟨r1, s1, t1⟩
  have m1 : r1.changes ≠ Changes.empty → ∃ c ∈ t1, c.isMutating = true := by
    intro hch
    have h2 := policiesAbsent_changes_mut p test name s (by simp [e1, hch])
    simpa [e1] using h2
  rcases e2 : instanceProfileDisassociated p test name s1 with ⟨r2, s2, t2⟩
  have m2 : r2.changes ≠ Changes.empty → ∃ c ∈ t2, c.isMutating = true := by
    intro hch
    have h2 := instanceProfileDisassociated_changes_mut p test name s1 (by simp [e2, hch])
    simpa [e2] using h2
  rcases e3 : instanceProfileAbsent p test name s2 with ⟨r3, s3, t3⟩
  have m3 : r3.changes ≠ Changes.empty → ∃ c ∈ t3, c.isMutating = true := by
    intro hch
    have h2 := instanceProfileAbsent_changes_mut p test name s2 (by simp [e3, hch])
    simpa [e3] using h2
  rcases e4 : roleAbsent p test name s3 with ⟨r4, s4, t4⟩
  have m4 : r4.changes ≠ Changes.empty → ∃ c ∈ t4, c.isMutating = true := by
    intro hch
    have h2 := roleAbsent_changes_mut p test name s3 (by simp [e4, hch])
    simpa [e4] using h2
  simp only [absent, e1, e2, e3, e4] at h ⊢
  by_cases f1 : r1.result = some false
  · rw [if_pos f1] at h ⊢
    simp only [mergeStep_changes, retInit] at h
    rcases update_ne_empty _ _ h with h0 | hc1
    · exact absurd rfl h0
    · obtain ⟨c, hcm, hm⟩ := m1 hc1
      exact ⟨c, by simp [List.mem_append, hcm], hm⟩
  · rw [if_neg f1] at h ⊢
    by_cases f2 : r2.result = some false
    · rw [if_pos f2] at h ⊢
      simp only [mergeStep_changes, retInit] at h
      rcases update_ne_empty _ _ h with h' | hc2
      · rcases update_ne_empty _ _ h' with h0 | hc1
        · exact absurd rfl h0
        · obtain ⟨c, hcm, hm⟩ := m1 hc1
          exact ⟨c, by simp [List.mem_append, hcm], hm⟩
      · obtain ⟨c, hcm, hm⟩ := m2 hc2
        exact ⟨c, by simp [List.mem_append, hcm], hm⟩
    · rw [if_neg f2] at h ⊢
      by_cases f3 : r3.result = some false
      · rw [if_pos f3] at h ⊢
        simp only [mergeStep_changes, retInit] at h
        rcases update_ne_empty _ _ h with h' | hc3
        · rcases update_ne_empty _ _ h' with h'' | hc2
          · rcases update_ne_empty _ _ h'' with h0 | hc1
            · exact absurd rfl h0
            · obtain ⟨c, hcm, hm⟩ := m1 hc1
              exact ⟨c, by simp [List.mem_append, hcm], hm⟩
          · obtain ⟨c, hcm, hm⟩ := m2 hc2
            exact ⟨c, by simp [List.mem_append, hcm], hm⟩
        · obtain ⟨c, hcm, hm⟩ := m3 hc3
          exact ⟨c, by simp [List.mem_append, hcm], hm⟩
      · rw [if_neg f3] at h ⊢
        simp only [mergeStep_changes, retInit] at h
        rcases update_ne_empty _ _ h with h' | hc4
        · rcases update_ne_empty _ _ h' with h'' | hc3
          · rcases update_ne_empty _ _ h'' with h''' | hc2
            · rcases update_ne_empty _ _ h''' with h0 | hc1
              · exact absurd rfl h0
              · obtain ⟨c, hcm, hm⟩ := m1 hc1
                exact ⟨c, by simp [List.mem_append, hcm], hm⟩
            · obtain ⟨c, hcm, hm⟩ := m2 hc2
              exact ⟨c, by simp [List.mem_append, hcm], hm⟩
          · obtain ⟨c, hcm, hm⟩ := m3 hc3
            exact ⟨c, by simp [List.mem_append, hcm], hm⟩
        · obtain ⟨c, hcm, hm⟩ := m4 hc4
          exact ⟨c, by simp [List.mem_append, hcm], hm⟩

theorem absent_result_none (p : Prov) (test : Bool) (name : String) (s : ProvState)
    (h : (absent p test name s).1.result = none) : test = true := by
  by_cases ht : test = true
  · exact ht
  · exfalso
    have ht2 : test = false := by simpa using ht
    subst ht2
    rcases e1 : policiesAbsent p false name s with ⟨r1, s1, t1⟩
    have n1 : r1.result ≠ none := by
      have h2 := policiesAbsent_live_ne_none p name s
      simpa [e1] using h2
    rcases e2 : instanceProfileDisassociated p false name s1 with ⟨r2, s2, t2⟩
    have n2 : r2.result ≠ none := by
      have h2 := instanceProfileDisassociated_live_ne_none p name s1
      simpa [e2] using h2
    rcases e3 : instanceProfileAbsent p false name s2 with ⟨r3, s3, t3⟩
    have n3 : r3.result ≠ none := by
      have h2 := instanceProfileAbsent_live_ne_none p name s2
      simpa [e3] using h2
    rcases e4 : roleAbsent p false name s3 with ⟨r4, s4, t4⟩
    have n4 : r4.result ≠ none := by
      have h2 := roleAbsent_live_ne_none p name s3
      simpa [e4] using h2
    simp only [absent, e1, e2, e3, e4] at h
    by_cases f1 : r1.result = some false
    · rw [if_pos f1] at h
      simp only [mergeStep_result, retInit] at h
      rcases mergeRes_none _ _ h with h0 | h0
      · cases h0
      · exact n1 h0
    · rw [if_neg f1] at h
      by_cases f2 : r2.result = some false
      · rw [if_pos f2] at h
        simp only [mergeStep_result, retInit] at h
        rcases mergeRes_none _ _ h with h' | h0
        · rcases mergeRes_none _ _ h' with h0 | h0
          · cases h0
          · exact n1 h0
        · exact n2 h0
      · rw [if_neg f2] at h
        by_cases f3 : r3.result = some false
        · rw [if_pos f3] at h
          simp only [mergeStep_result, retInit] at h
          rcases mergeRes_none _ _ h with h' | h0
          · rcases mergeRes_none _ _ h' with h'' | h0
            · rcases mergeRes_none _ _ h'' with h0 | h0
              · cases h0
              · exact n1 h0
            · exact n2 h0
          · exact n3 h0
        · rw [if_neg f3] at h
          simp only [mergeStep_result, retInit] at h
          rcases mergeRes_none _ _ h with h' | h0
          · rcases mergeRes_none _ _ h' with h'' | h0
            · rcases mergeRes_none _ _ h'' with h''' | h0
              · rcases mergeRes_none _ _ h''' with h0 | h0
                · cases h0
                · exact n1 h0
              · exact n2 h0
            · exact n3 h0
          · exact n4 h0

theorem absent_dry_pending_live_mut (p : Prov) (name : String) (s : ProvState)
    (h : (absent p true name s).1.result = none) :
    ∃ c ∈ (absent p false name s).2.2, c.isMutating = true := by
  have hs1 := policiesAbsent_dry_state p name s
  have hs2 := instanceProfileDisassociated_dry_state p name s
  have hs3 := instanceProfileAbsent_dry_state p name s
  by_cases d1 : (policiesAbsent p true name s).1.result = none
  · obtain ⟨c, hc, hm⟩ := policiesAbsent_dry_pending_live_mut p name s d1
    exact ⟨c, absent_trace_mem1 p false name s c hc, hm⟩
  · have d1t : (policiesAbsent p true name s).1.result = some true := by
      rcases optionBool_val (policiesAbsent p true name s).1.result with hv | hv | hv
      · exact absurd hv d1
      · exact absurd hv (policiesAbsent_dry_ne_false p name s)
      · exact hv
    have l1 := policiesAbsent_dry_true_live_eq p name s d1t
    have hnf1 : (policiesAbsent p false name s).1.result ≠ some false := by
      rw [l1, d1t]
      simp
    have hls1 : (policiesAbsent p false name s).2.1 = s := by rw [l1, hs1]
    by_cases d2 : (instanceProfileDisassociated p true name s).1.result = none
    · obtain ⟨c, hc, hm⟩ := instanceProfileDisassociated_dry_pending_live_mut p name s d2
      refine ⟨c, absent_trace_mem2 p false name s c hnf1 ?_, hm⟩
      rw [hls1]
      exact hc
    · have d2t : (instanceProfileDisassociated p true name s).1.result = some true := by
        rcases optionBool_val (instanceProfileDisassociated p true name s).1.result
          with hv | hv | hv
        · exact absurd hv d2
        · exact absurd hv (instanceProfileDisassociated_dry_ne_false p name s)
        · exact hv
      have l2 := instanceProfileDisassociated_dry_true_live_eq p name s d2t
      have hnf2 : (instanceProfileDisassociated p false name
          (policiesAbsent p false name s).2.1).1.result ≠ some false := by
        rw [hls1, l2, d2t]
        simp
      have hls2 : (instanceProfileDisassociated p false name
          (policiesAbsent p false name s).2.1).2.1 = s := by
        rw [hls1, l2, hs2]
      by_cases d3 : (instanceProfileAbsent p true name s).1.result = none
      · obtain ⟨c, hc, hm⟩ := instanceProfileAbsent_dry_pending_live_mut p name s d3
        refine ⟨c, absent_trace_mem3 p false name s c hnf1 hnf2 ?_, hm⟩
        rw [hls2]
        exact hc
      · have d3t : (instanceProfileAbsent p true name s).1.result = some true := by
          rcases optionBool_val (instanceProfileAbsent p true name s).1.result
            with hv | hv | hv
          · exact absurd hv d3
          · exact absurd hv (instanceProfileAbsent_dry_ne_false p name s)
          · exact hv
        have l3 := instanceProfileAbsent_dry_true_live_eq p name s d3t
        have hnf3 : (instanceProfileAbsent p false name
            (instanceProfileDisassociated p false name
              (policiesAbsent p false name s).2.1).2.1).1.result ≠ some false := by
          rw [hls2, l3, d3t]
          simp
        have hls3 : (instanceProfileAbsent p false name
            (instanceProfileDisassociated p false name
              (policiesAbsent p false name s).2.1).2.1).2.1 = s := by
          rw [hls2, l3, hs3]
        by_cases d4 : (roleAbsent p true name s).1.result = none
        · obtain ⟨c, hc, hm⟩ := roleAbsent_dry_pending_live_mut p name s d4
          refine ⟨c, absent_trace_mem4 p false name s c hnf1 hnf2 hnf3 ?_, hm⟩
          rw [hls3]
          exact hc
        · exfalso
          have d4t : (roleAbsent p true name s).1.result = some true := by
            rcases optionBool_val (roleAbsent p true name s).1.result with hv | hv | hv
            · exact absurd hv d4
            · exact absurd hv (roleAbsent_dry_ne_false p name s)
            · exact hv
          have pc := (absent_cases p true name s).2.2.2
          rw [hs1, hs2, hs3] at pc
          have hres := (pc (by rw [d1t]; simp) (by rw [d2t]; simp)
            (by rw [d3t]; simp)).2
          rw [hres, d1t, d2t, d3t, d4t] at h
          exact absurd h (by decide)

/-- C9. For every sub-reconciler and for the `present` and `absent` entry
points: the outcome carries changes only when a mutating call was issued
(performed or attempted), and the result is pending (`None`) only when
the dry-run flag is set and the same invocation in live mode issues a
mutating call (a mutation would be needed). -/
theorem changes_and_pending_invariants (p : Prov) (test : Bool) (name : String)
    (pd path : Option String) (policies : Dict) (pillars : List String)
    (cip dp : Bool) (s : ProvState) :
    (((rolePresent p test name pd path s).1.changes ≠ Changes.empty →
        ∃ c ∈ (rolePresent p test name pd path s).2.2, c.isMutating = true) ∧
      ((rolePresent p test name pd path s).1.result = none →
        test = true ∧
          ∃ c ∈ (rolePresent p false name pd path s).2.2, c.isMutating = true)) ∧
    (((instanceProfilePresent p test name s).1.changes ≠ Changes.empty →
        ∃ c ∈ (instanceProfilePresent p test name s).2.2, c.isMutating = true) ∧
      ((instanceProfilePresent p test name s).1.result = none →
        test = true ∧
          ∃ c ∈ (instanceProfilePresent p false name s).2.2, c.isMutating = true)) ∧
    (((instanceProfileAssociated p test name s).1.changes ≠ Changes.empty →
        ∃ c ∈ (instanceProfileAssociated p test name s).2.2, c.isMutating = true) ∧
      ((instanceProfileAssociated p test name s).1.result = none →
        test = true ∧
          ∃ c ∈ (instanceProfileAssociated p false name s).2.2, c.isMutating = true)) ∧
    (((policiesPresent p test name policies dp s).1.changes ≠ Changes.empty →
        ∃ c ∈ (policiesPresent p test name policies dp s).2.2, c.isMutating = true) ∧
      ((policiesPresent p test name policies dp s).1.result = none →
        test = true ∧
          ∃ c ∈ (policiesPresent p false name policies dp s).2.2, c.isMutating = true)) ∧
    (((policiesAbsent p test name s).1.changes ≠ Changes.empty →
        ∃ c ∈ (policiesAbsent p test name s).2.2, c.isMutating = true) ∧
      ((policiesAbsent p test name s).1.result = none →
        test = true ∧
          ∃ c ∈ (policiesAbsent p false name s).2.2, c.isMutating = true)) ∧
    (((instanceProfileDisassociated p test name s).1.changes ≠ Changes.empty →
        ∃ c ∈ (instanceProfileDisassociated p test name s).2.2, c.isMutating = true) ∧
      ((instanceProfileDisassociated p test name s).1.result = none →
        test = true ∧
          ∃ c ∈ (instanceProfileDisassociated p false name s).2.2,
            c.isMutating = true)) ∧
    (((instanceProfileAbsent p test name s).1.changes ≠ Changes.empty →
        ∃ c ∈ (instanceProfileAbsent p test name s).2.2, c.isMutating = true) ∧
      ((instanceProfileAbsent p test name s).1.result = none →
        test = true ∧
          ∃ c ∈ (instanceProfileAbsent p false name s).2.2, c.isMutating = true)) ∧
    (((roleAbsent p test name s).1.changes ≠ Changes.empty →
        ∃ c ∈ (roleAbsent p test name s).2.2, c.isMutating = true) ∧
      ((roleAbsent p test name s).1.result = none →
        test = true ∧
          ∃ c ∈ (roleAbsent p false name s).2.2, c.isMutating = true)) ∧
    (((present p test name pd path policies pillars cip dp s).1.changes
          ≠ Changes.empty →
        ∃ c ∈ (present p test name pd path policies pillars cip dp s).2.2,
          c.isMutating = true) ∧
      ((present p test name pd path policies pillars cip dp s).1.result = none →
        test = true ∧
          ∃ c ∈ (present p false name pd path policies pillars cip dp s).2.2,
            c.isMutating = true)) ∧
    (((absent p test name s).1.changes ≠ Changes.empty →
        ∃ c ∈ (absent p test name s).2.2, c.isMutating = true) ∧
      ((absent p test name s).1.result = none →
        test = true ∧
          ∃ c ∈ (absent p false name s).2.2, c.isMutating = true)) := by
  refine ⟨⟨rolePresent_changes_mut p test name pd path s, ?_⟩,
    ⟨instanceProfilePresent_changes_mut p test name s, ?_⟩,
    ⟨instanceProfileAssociated_changes_mut p test name s, ?_⟩,
    ⟨policiesPresent_changes_mut p test name policies dp s, ?_⟩,
    ⟨policiesAbsent_changes_mut p test name s, ?_⟩,
    ⟨instanceProfileDisassociated_changes_mut p test name s, ?_⟩,
    ⟨instanceProfileAbsent_changes_mut p test name s, ?_⟩,
    ⟨roleAbsent_changes_mut p test name s, ?_⟩,
    ⟨present_changes_mut p test name pd path policies pillars cip dp s, ?_⟩,
    ⟨absent_changes_mut p test name s, ?_⟩⟩
  · intro h
    cases test with
    | false => exact absurd h (rolePresent_live_ne_none p name pd path s)
    | true => exact ⟨rfl, rolePresent_dry_pending_live_mut p name pd path s h⟩
  · intro h
    cases test with
    | false => exact absurd h (instanceProfilePresent_live_ne_none p name s)
    | true => exact ⟨rfl, instanceProfilePresent_dry_pending_live_mut p name s h⟩
  · intro h
    cases test with
    | false => exact absurd h (instanceProfileAssociated_live_ne_none p name s)
    | true => exact ⟨rfl, instanceProfileAssociated_dry_pending_live_mut p name s h⟩
  · intro h
    cases test with
    | false => exact absurd h (policiesPresent_live_ne_none p name policies dp s)
    | true => exact ⟨rfl, policiesPresent_dry_pending_live_mut p name policies dp s h⟩
  · intro h
    cases test with
    | false => exact absurd h (policiesAbsent_live_ne_none p name s)
    | true => exact ⟨rfl, policiesAbsent_dry_pending_live_mut p name s h⟩
  · intro h
    cases test with
    | false => exact absurd h (instanceProfileDisassociated_live_ne_none p name s)
    | true => exact ⟨rfl, instanceProfileDisassociated_dry_pending_live_mut p name s h⟩
  · intro h
    cases test with
    | false => exact absurd h (instanceProfileAbsent_live_ne_none p name s)
    | true => exact ⟨rfl, instanceProfileAbsent_dry_pending_live_mut p name s h⟩
  · intro h
    cases test with
    | false => exact absurd h (roleAbsent_live_ne_none p name s)
    | true => exact ⟨rfl, roleAbsent_dry_pending_live_mut p name s h⟩
  · intro h
    have ht := present_result_none p test name pd path policies pillars cip dp s h
    subst ht
    exact ⟨rfl, present_dry_pending_live_mut p name pd path policies pillars cip dp s h⟩
  · intro h
    have ht := absent_result_none p test name s h
    subst ht
    exact ⟨rfl, absent_dry_pending_live_mut p name s h⟩

/-- C10. In live mode, `absent` on an account where the role, instance
profile, association and policy list are all already absent issues no
mutating provider call and returns result true with empty changes. -/
theorem absent_noop_on_clean_state (p : Prov) (name : String) :
    (absent p false name cleanState).1.result = some true ∧
    (absent p false name cleanState).1.changes = Changes.empty ∧
    readOnly (absent p false name cleanState).2.2 = true := by
  refine ⟨rfl, rfl, rfl⟩

end BotoIamRole
